import Mathlib

/-!
A shallow embedding of `tools/simulators/network_topology.py` (the network
topology model and generators of the switch-simulator repository), together
with proofs about its operations.

Modelling conventions:

* Python dicts are modelled as association lists (`List (String × _)`) in
  insertion order; `d[k] = v` is `aset` (update in place, append if new),
  `del d[k]` is `adel`, `k in d` is `hasKey`.
* Python's `set` of connection tuples is a duplicate-free list: adding is
  append-if-absent, removal is `List.erase`.
* Device objects are referenced by their unique `device_id` instead of by
  object identity.  In every state the operations can produce, the peer
  objects stored in interface slots are exactly the devices registered in
  the topology under that id, so identity tests on devices coincide with
  id equality.
* Raised `ValueError`s are modelled by `Except TopoError`; each raise site
  is mapped to the matching constructor of the spec's error taxonomy.
  Since every operation of the source validates before mutating, a call
  that raises leaves the Python topology object unchanged; accordingly the
  embedding simply returns `.error _` without a new state.
* JSON property values are the `Value` type below.  `random`-generated MAC
  addresses are abstracted by a caller-supplied oracle (`mac` argument /
  `macGen` function); nothing else in the module is nondeterministic.
-/

mutual

/-- A JSON-like property value (mutual with its list and map forms so that
structural recursion and decidable equality are available). -/
inductive Value where
  | str : String → Value
  | nat : Nat → Value
  | list : ValueList → Value
  | map : ValueMap → Value

/-- A list of property values. -/
inductive ValueList where
  | nil : ValueList
  | cons : Value → ValueList → ValueList

/-- A string-keyed map of property values, in insertion order. -/
inductive ValueMap where
  | nil : ValueMap
  | cons : String → Value → ValueMap → ValueMap

end

mutual

def Value.beq : Value → Value → Bool
  | .str a, .str b => a = b
  | .nat a, .nat b => a = b
  | .list a, .list b => ValueList.beq a b
  | .map a, .map b => ValueMap.beq a b
  | _, _ => false

def ValueList.beq : ValueList → ValueList → Bool
  | .nil, .nil => true
  | .cons a as, .cons b bs => Value.beq a b && ValueList.beq as bs
  | _, _ => false

def ValueMap.beq : ValueMap → ValueMap → Bool
  | .nil, .nil => true
  | .cons k a as, .cons k' b bs => decide (k = k') && Value.beq a b && ValueMap.beq as bs
  | _, _ => false

end

mutual

def Value.eq_of_beq : ∀ {a b : Value}, Value.beq a b = true → a = b
  | .str _, .str _, h => by simp only [Value.beq, decide_eq_true_eq] at h; rw [h]
  | .nat _, .nat _, h => by simp only [Value.beq, decide_eq_true_eq] at h; rw [h]
  | .list _, .list _, h => by
      simp only [Value.beq] at h
      rw [ValueList.eq_of_beq h]
  | .map _, .map _, h => by
      simp only [Value.beq] at h
      rw [ValueMap.eq_of_beq h]

def ValueList.eq_of_beq : ∀ {a b : ValueList}, ValueList.beq a b = true → a = b
  | .nil, .nil, _ => rfl
  | .cons _ _, .cons _ _, h => by
      simp only [ValueList.beq, Bool.and_eq_true] at h
      rw [Value.eq_of_beq h.1, ValueList.eq_of_beq h.2]

def ValueMap.eq_of_beq : ∀ {a b : ValueMap}, ValueMap.beq a b = true → a = b
  | .nil, .nil, _ => rfl
  | .cons _ _ _, .cons _ _ _, h => by
      simp only [ValueMap.beq, Bool.and_eq_true, decide_eq_true_eq] at h
      rw [h.1.1, Value.eq_of_beq h.1.2, ValueMap.eq_of_beq h.2]

end

mutual

def Value.beq_self : ∀ (a : Value), Value.beq a a = true
  | .str _ => by simp [Value.beq]
  | .nat _ => by simp [Value.beq]
  | .list a => by simp [Value.beq, ValueList.beq_self a]
  | .map a => by simp [Value.beq, ValueMap.beq_self a]

def ValueList.beq_self : ∀ (a : ValueList), ValueList.beq a a = true
  | .nil => rfl
  | .cons a as => by simp [ValueList.beq, Value.beq_self a, ValueList.beq_self as]

def ValueMap.beq_self : ∀ (a : ValueMap), ValueMap.beq a a = true
  | .nil => rfl
  | .cons _ a as => by simp [ValueMap.beq, Value.beq_self a, ValueMap.beq_self as]

end

instance : DecidableEq Value := fun a b =>
  if h : Value.beq a b then .isTrue (Value.eq_of_beq h)
  else .isFalse (fun he => h (he ▸ Value.beq_self a))

instance {e a : Type} [DecidableEq e] [DecidableEq a] : DecidableEq (Except e a) := fun x y =>
  match x, y with
  | .ok u, .ok v =>
    if h : u = v then .isTrue (by rw [h]) else .isFalse (fun he => h (Except.ok.inj he))
  | .error u, .error v =>
    if h : u = v then .isTrue (by rw [h]) else .isFalse (fun he => h (Except.error.inj he))
  | .ok _, .error _ => .isFalse (fun he => Except.noConfusion he)
  | .error _, .ok _ => .isFalse (fun he => Except.noConfusion he)

/-- Build a `ValueList` of strings (used for port-name lists). -/
def ValueList.ofStrings : List String → ValueList
  | [] => .nil
  | s :: rest => .cons (.str s) (ValueList.ofStrings rest)

/-- Python truthiness of a property value (`if value:`): empty strings,
zero and empty containers are falsy. -/
def Value.truthy : Value → Bool
  | .str s => s ≠ ""
  | .nat n => n ≠ 0
  | .list l => match l with | .nil => false | .cons _ _ => true
  | .map m => match m with | .nil => false | .cons _ _ _ => true

/-- Truthiness of an optional value (`None` is falsy). -/
def optTruthy : Option Value → Bool
  | none => false
  | some v => v.truthy

/-! ### Association lists (the model of Python `dict`) -/

/-- `d.get(k)` / `d[k]` lookup: first (and in a dict, only) binding. -/
def alookup {β : Type} : List (String × β) → String → Option β
  | [], _ => none
  | (k', v) :: rest, k => if k' = k then some v else alookup rest k

/-- `k in d`. -/
def hasKey {β : Type} (l : List (String × β)) (k : String) : Bool :=
  (alookup l k).isSome

/-- `d[k] = v`: update in place if present (keeping the key's position),
append a new binding otherwise. -/
def aset {β : Type} : List (String × β) → String → β → List (String × β)
  | [], k, v => [(k, v)]
  | (k', v') :: rest, k, v =>
    if k' = k then (k, v) :: rest else (k', v') :: aset rest k v

/-- `del d[k]`: drop the binding (a dict holds each key once). -/
def adel {β : Type} : List (String × β) → String → List (String × β)
  | [], _ => []
  | (k', v') :: rest, k => if k' = k then rest else (k', v') :: adel rest k

/-- Mutation of the object stored under key `k` (Python objects are
aliased: updating the object updates the dict entry). -/
def amod {β : Type} (l : List (String × β)) (k : String) (f : β → β) : List (String × β) :=
  l.map (fun p => if p.1 = k then (p.1, f p.2) else p)

/-! ### Devices -/

/-- A peer reference held in an interface slot: the connected device's id
and the interface name on that device. -/
abbrev Peer := String × String

/-- `NetworkDevice`: id, type, display name, interface slots (insertion
ordered, each holding an optional peer reference) and the property bag. -/
structure NetworkDevice where
  device_id : String
  device_type : String
  name : String
  interfaces : List (String × Option Peer)
  properties : List (String × Value)
deriving DecidableEq

/-- `name or device_id` (Python truthiness: `None` and `""` fall back). -/
def nameOr (name : Option String) (device_id : String) : String :=
  match name with
  | none => device_id
  | some s => if s = "" then device_id else s

/-- `NetworkDevice.__init__` (interfaces and properties start empty). -/
def NetworkDevice.init (device_id device_type : String) (name : Option String) : NetworkDevice :=
  { device_id := device_id
    device_type := device_type
    name := nameOr name device_id
    interfaces := []
    properties := [] }

/-- `add_interface`: no-op if the name exists, otherwise add an empty slot. -/
def NetworkDevice.add_interface (d : NetworkDevice) (interface_name : String) : NetworkDevice :=
  if hasKey d.interfaces interface_name then d
  else { d with interfaces := d.interfaces ++ [(interface_name, none)] }

/-- `get_available_interface`: first interface (in insertion order) whose
slot is empty. -/
def NetworkDevice.get_available_interface (d : NetworkDevice) : Option String :=
  (d.interfaces.find? (fun p => p.2.isNone)).map (fun p => p.1)

/-- `set_property`. -/
def NetworkDevice.set_property (d : NetworkDevice) (key : String) (value : Value) : NetworkDevice :=
  { d with properties := aset d.properties key value }

/-- Decimal digit characters (Python `str(int)` output alphabet). -/
def digitCh : Nat → Char
  | 0 => '0' | 1 => '1' | 2 => '2' | 3 => '3' | 4 => '4'
  | 5 => '5' | 6 => '6' | 7 => '7' | 8 => '8' | _ => '9'

/-- Decimal digits of `n`, most significant first; `fuel` bounds the
recursion so that the definition stays structural and kernel-reducible. -/
def natChars : Nat → Nat → List Char
  | 0, _ => []
  | fuel + 1, n =>
    if n < 10 then [digitCh n] else natChars fuel (n / 10) ++ [digitCh (n % 10)]

/-- Python `str(n)` for a natural number. -/
def natToStr (n : Nat) : String := ⟨natChars (n + 1) n⟩

/-- `mkPorts n` = `["port1", …, "portn"]`, the ports allocated by the
`Switch` constructor. -/
def mkPorts (n : Nat) : List String :=
  (List.range n).map (fun i => "port" ++ natToStr (i + 1))

/-- The seeded VLAN table `{'1': {'name': 'default', 'ports': [...]}}`. -/
def defaultVlans (ports : List String) : Value :=
  .map (.cons "1" (.map (.cons "name" (.str "default")
    (.cons "ports" (.list (ValueList.ofStrings ports)) .nil))) .nil)

/-- `Switch.__init__`: ports `port1..portN`, then the switch properties
(`switch_type`, the seeded `vlans`, and for `'l3'` empty `routing_table`
and `ip_interfaces`).  `switch_type` is kept as a raw `Value` because the
loader passes through whatever the document holds. -/
def Switch.mk (device_id : String) (name : Option String) (num_ports : Nat)
    (switch_type : Value) : NetworkDevice :=
  let base := NetworkDevice.init device_id "switch" name
  let base := (mkPorts num_ports).foldl NetworkDevice.add_interface base
  let base := base.set_property "switch_type" switch_type
  let base := base.set_property "vlans" (defaultVlans (base.interfaces.map (fun p => p.1)))
  if switch_type = .str "l3" then
    ((base.set_property "routing_table" (.map .nil)).set_property "ip_interfaces" (.map .nil))
  else base

/-- `Host.__init__`: a single `eth0` interface; if the (truthy) ip is
given, store it and a synthesized MAC.  The random MAC is abstracted by
the `mac` argument. -/
def Host.mk (device_id : String) (name : Option String) (ip : Option Value)
    (mac : String) : NetworkDevice :=
  let base := NetworkDevice.init device_id "host" name
  let base := base.add_interface "eth0"
  if optTruthy ip then
    match ip with
    | some v => (base.set_property "ip_address" v).set_property "mac_address" (.str mac)
    | none => base
  else base

/-! ### The topology container -/

/-- The error taxonomy: one constructor per distinct `raise` site
(`ValueError`s in the source, plus the `ZeroDivisionError` that
`create_ring_network(0, _)` runs into). -/
inductive TopoError where
  | duplicateDevice
  | deviceNotFound
  | interfaceNotFound
  | interfaceAlreadyConnected
  | notConnected
  | zeroDivision
deriving DecidableEq, Repr

/-- `NetworkTopology`: name, devices keyed by id, and the set of
connection records `(device1_id, intf1, device2_id, intf2)` (a Python
`set` of tuples, modelled as a duplicate-free list). -/
structure NetworkTopology where
  name : String
  devices : List (String × NetworkDevice)
  connections : List (String × String × String × String)
deriving DecidableEq

/-- `NetworkTopology.__init__`. -/
def NetworkTopology.init (name : String) : NetworkTopology :=
  { name := name, devices := [], connections := [] }

/-- `add_device`: reject a duplicate id, otherwise register the device. -/
def NetworkTopology.add_device (t : NetworkTopology) (device : NetworkDevice) :
    Except TopoError NetworkTopology :=
  if hasKey t.devices device.device_id then .error .duplicateDevice
  else .ok { t with devices := t.devices ++ [(device.device_id, device)] }

/-- Write an interface slot of the device registered under `d` (the model
of mutating the aliased device object). -/
def setSlot (t : NetworkTopology) (d i : String) (p : Option Peer) : NetworkTopology :=
  { t with devices := amod t.devices d (fun dev => { dev with interfaces := aset dev.interfaces i p }) }

/-- `self.connections.add c` (a set: append only if absent). -/
def addConn (t : NetworkTopology) (c : String × String × String × String) : NetworkTopology :=
  { t with connections := if c ∈ t.connections then t.connections else t.connections ++ [c] }

/-- `if c in self.connections: self.connections.remove(c)`. -/
def remConn (t : NetworkTopology) (c : String × String × String × String) : NetworkTopology :=
  { t with connections := if c ∈ t.connections then t.connections.erase c else t.connections }

/-- `connect_devices`: all validation first (devices exist, interfaces
exist, both slots empty), then set both slots reciprocally and add the
ordered record to `connections`. -/
def NetworkTopology.connect_devices (t : NetworkTopology)
    (device1_id interface1 device2_id interface2 : String) :
    Except TopoError NetworkTopology :=
  match alookup t.devices device1_id with
  | none => .error .deviceNotFound
  | some device1 =>
    match alookup t.devices device2_id with
    | none => .error .deviceNotFound
    | some device2 =>
      match alookup device1.interfaces interface1 with
      | none => .error .interfaceNotFound
      | some slot1 =>
        match alookup device2.interfaces interface2 with
        | none => .error .interfaceNotFound
        | some slot2 =>
          if slot1.isSome then .error .interfaceAlreadyConnected
          else if slot2.isSome then .error .interfaceAlreadyConnected
          else .ok (addConn
            (setSlot (setSlot t device1_id interface1 (some (device2_id, interface2)))
              device2_id interface2 (some (device1_id, interface1)))
            (device1_id, interface1, device2_id, interface2))

/-- `disconnect_devices`: validate devices and interfaces, require
`device1`'s slot to reference exactly `(device2, interface2)` (the
source inspects only that one slot), then clear both slots and remove the
ordered record if it is present in `connections`. -/
def NetworkTopology.disconnect_devices (t : NetworkTopology)
    (device1_id interface1 device2_id interface2 : String) :
    Except TopoError NetworkTopology :=
  match alookup t.devices device1_id with
  | none => .error .deviceNotFound
  | some device1 =>
    match alookup t.devices device2_id with
    | none => .error .deviceNotFound
    | some device2 =>
      match alookup device1.interfaces interface1 with
      | none => .error .interfaceNotFound
      | some slot1 =>
        match alookup device2.interfaces interface2 with
        | none => .error .interfaceNotFound
        | some _ =>
          match slot1 with
          | none => .error .notConnected
          | some (pd, pi_) =>
            if pd ≠ device2_id ∨ pi_ ≠ interface2 then .error .notConnected
            else .ok (remConn
              (setSlot (setSlot t device1_id interface1 none) device2_id interface2 none)
              (device1_id, interface1, device2_id, interface2))

/-- `remove_device`: disconnect every live interface of the device (over a
snapshot of its interface items taken before the loop), then delete it. -/
def NetworkTopology.remove_device (t : NetworkTopology) (device_id : String) :
    Except TopoError NetworkTopology :=
  match alookup t.devices device_id with
  | none => .error .deviceNotFound
  | some device => do
    let t' ← device.interfaces.foldlM (fun acc p =>
      match p.2 with
      | none => pure acc
      | some (rd, ri) => acc.disconnect_devices device_id p.1 rd ri) t
    pure { t' with devices := adel t'.devices device_id }

/-! ### The serialized document and the serializer -/

/-- The per-device part of the document produced by
`NetworkDevice.to_dict` (the loader reads `type`, `name`, `interfaces`
and `properties`; `id` and `connections` are produced but ignored on
load). -/
structure DeviceDoc where
  id : String
  type : String
  name : String
  interfaces : List String
  connections : List (String × Option Peer)
  properties : List (String × Value)
deriving DecidableEq

/-- `NetworkDevice.to_dict`. -/
def NetworkDevice.to_dict (d : NetworkDevice) : DeviceDoc :=
  { id := d.device_id
    type := d.device_type
    name := d.name
    interfaces := d.interfaces.map (fun p => p.1)
    connections := d.interfaces
    properties := d.properties }

/-- The whole-topology document (`NetworkTopology.to_dict` /
`load_from_file` wire format; file I/O itself is out of scope). -/
structure TopoDoc where
  name : String
  devices : List (String × DeviceDoc)
  connections : List (String × String × String × String)
deriving DecidableEq

/-- `NetworkTopology.to_dict`. -/
def NetworkTopology.to_dict (t : NetworkTopology) : TopoDoc :=
  { name := t.name
    devices := t.devices.map (fun p => (p.1, p.2.to_dict))
    connections := t.connections }

/-- One iteration of the loader's device loop: `switch` and `host`
entries are reconstructed through their constructors (port count from the
interface list, `switch_type`/`ip_address` from the properties), all
document properties are then replayed, and the device is added; an entry
of any other type is skipped.  `macGen` abstracts the random MAC drawn
when a host is rebuilt with a truthy ip. -/
def load_device_step (macGen : String → String) (acc : NetworkTopology)
    (p : String × DeviceDoc) : Except TopoError NetworkTopology :=
  let dd := p.2
  if dd.type = "switch" then
    let switch_type := (alookup dd.properties "switch_type").getD (.str "l2")
    let num_ports := dd.interfaces.length
    let device := Switch.mk p.1 (some dd.name) num_ports switch_type
    let device := dd.properties.foldl (fun d q => d.set_property q.1 q.2) device
    acc.add_device device
  else if dd.type = "host" then
    let ip := alookup dd.properties "ip_address"
    let device := Host.mk p.1 (some dd.name) ip (macGen p.1)
    let device := dd.properties.foldl (fun d q => d.set_property q.1 q.2) device
    acc.add_device device
  else pure acc

/-- The loader's device phase: fold the device entries over a fresh
topology named after the document. -/
def load_devices (doc : TopoDoc) (macGen : String → String) :
    Except TopoError NetworkTopology :=
  doc.devices.foldlM (load_device_step macGen) (NetworkTopology.init doc.name)

/-- `load_from_file` with the parsed document supplied directly: rebuild
the devices, then replay every connection record through
`connect_devices` in document order. -/
def NetworkTopology.load_from_file (doc : TopoDoc) (macGen : String → String) :
    Except TopoError NetworkTopology := do
  let t ← load_devices doc macGen
  doc.connections.foldlM
    (fun acc c => acc.connect_devices c.1 c.2.1 c.2.2.1 c.2.2.2) t

/-! ### The ring generator -/

/-- `f"switch{j}"`. -/
def swId (j : Nat) : String := "switch" ++ natToStr j

/-- `f"host{i}"`. -/
def hostId (i : Nat) : String := "host" ++ natToStr i

/-- `get_available_interface` on the device registered under `id` (the
source calls it on the aliased object held in a local list; ids are never
removed by the generators, so the lookup models the alias exactly). -/
def getAvailOf (t : NetworkTopology) (id : String) : Option String :=
  (alookup t.devices id).bind NetworkDevice.get_available_interface

/-- Switch-creation iteration of `create_ring_network` (1-based `i+1`). -/
def ringSwitchStep (acc : NetworkTopology) (i : Nat) : Except TopoError NetworkTopology :=
  acc.add_device (Switch.mk (swId (i + 1)) (some ("Switch " ++ natToStr (i + 1))) 24 (.str "l2"))

/-- Host-creation iteration: hosts get ip `192.168.1.(100+i)`, hence a
synthesized MAC, abstracted by `macGen` applied to the host id. -/
def ringHostAddStep (macGen : String → String) (acc : NetworkTopology) (i : Nat) :
    Except TopoError NetworkTopology :=
  acc.add_device (Host.mk (hostId (i + 1)) (some ("Host " ++ natToStr (i + 1)))
    (some (.str ("192.168.1." ++ natToStr (100 + (i + 1))))) (macGen (hostId (i + 1))))

/-- Host-attachment iteration: host `i` (0-based) goes to switch
`min(i // hostsPerSwitch, n-1)`; both sides pick their first available
interface and connect only when both calls return a truthy name. -/
def ringHostConnectStep (num_switches hps : Nat) (acc : NetworkTopology) (i : Nat) :
    Except TopoError NetworkTopology :=
  let host_id := hostId (i + 1)
  let sw := swId (min (i / hps) (num_switches - 1) + 1)
  match getAvailOf acc host_id, getAvailOf acc sw with
  | some hi, some si =>
    if hi = "" ∨ si = "" then pure acc
    else acc.connect_devices host_id hi sw si
  | _, _ => pure acc

/-- Ring iteration `i`: connect switch `i` to switch `(i+1) % n`, first
available interfaces on both sides, skipped when either side has none. -/
def ringRingStep (num_switches : Nat) (acc : NetworkTopology) (i : Nat) :
    Except TopoError NetworkTopology :=
  let id1 := swId (i + 1)
  let id2 := swId ((i + 1) % num_switches + 1)
  match getAvailOf acc id1, getAvailOf acc id2 with
  | some si1, some si2 =>
    if si1 = "" ∨ si2 = "" then pure acc
    else acc.connect_devices id1 si1 id2 si2
  | _, _ => pure acc

/-- `create_ring_network` up to (and including) the host-attachment loop:
switches, hosts, the `hosts_per_switch` computation (a
`ZeroDivisionError` for `num_switches = 0`), and the host connections. -/
def ringHostPhase (macGen : String → String) (num_switches num_hosts : Nat) :
    Except TopoError NetworkTopology := do
  let t0 := NetworkTopology.init "Ring Network"
  let t1 ← (List.range num_switches).foldlM ringSwitchStep t0
  let t2 ← (List.range num_hosts).foldlM (ringHostAddStep macGen) t1
  if num_switches = 0 then .error .zeroDivision
  else
    let hps := max 1 (num_hosts / num_switches)
    (List.range num_hosts).foldlM (ringHostConnectStep num_switches hps) t2

/-- `create_ring_network`: the host phase followed by the ring loop. -/
def create_ring_network (macGen : String → String) (num_switches num_hosts : Nat) :
    Except TopoError NetworkTopology := do
  let t ← ringHostPhase macGen num_switches num_hosts
  (List.range num_switches).foldlM (ringRingStep num_switches) t

/-! ### Observations and claim-level predicates -/

/-- The device type registered under an id. -/
def typeOf (t : NetworkTopology) (id : String) : Option String :=
  (alookup t.devices id).map (fun d => d.device_type)

/-- The interface slot `id.interfaces[i]` (`none` when the device or the
interface does not exist, `some s` with the slot contents otherwise). -/
def slotOf (t : NetworkTopology) (id i : String) : Option (Option Peer) :=
  match alookup t.devices id with
  | none => none
  | some d => alookup d.interfaces i

/-- The property `id.properties[k]`. -/
def propOf (t : NetworkTopology) (id k : String) : Option Value :=
  match alookup t.devices id with
  | none => none
  | some d => alookup d.properties k

/-- The interface names of a device, in insertion order. -/
def intfKeysOf (d : NetworkDevice) : List String := d.interfaces.map Prod.fst

/-- The device ids of a topology, in insertion order. -/
def deviceIds (t : NetworkTopology) : List String := t.devices.map Prod.fst

/-- Whether `id` names a switch of `t`. -/
def isSwitchIn (t : NetworkTopology) (id : String) : Bool :=
  decide (typeOf t id = some "switch")

/-- Whether a connection record is switch-to-switch in `t`. -/
def ssRecordB (t : NetworkTopology) (c : String × String × String × String) : Bool :=
  isSwitchIn t c.1 && isSwitchIn t c.2.2.1

/-- The number of switch-to-switch connection records of `t`. -/
def ssCount (t : NetworkTopology) : Nat :=
  (t.connections.filter (ssRecordB t)).length

/-- Whether an interface entry is a free (unconnected) slot. -/
def freeSlotB (p : String × Option Peer) : Bool := p.2.isNone

/-- The number of free interface slots of a device. -/
def freeOf (d : NetworkDevice) : Nat := (d.interfaces.filter freeSlotB).length

/-- The number of free interface slots of the device registered under `id`. -/
def freeAt (t : NetworkTopology) (id : String) : Nat :=
  match alookup t.devices id with
  | none => 0
  | some d => freeOf d

/-- Whether an interface entry holds a peer on a different, switch-typed
device (`sw?` decides switch-ness of an id). -/
def peerSwitchB (sw? : String → Bool) (selfId : String) (p : String × Option Peer) : Bool :=
  match p.2 with
  | some q => (!(decide (q.1 = selfId))) && sw? q.1
  | none => false

/-- The number of interface slots of `id` whose peer is another switch. -/
def switchPeerSlotsAt (t : NetworkTopology) (id : String) : Nat :=
  match alookup t.devices id with
  | none => 0
  | some d => (d.interfaces.filter (peerSwitchB (isSwitchIn t) id)).length

/-- Whether a connection record has `(id, i)` as one of its endpoints. -/
def endMatchB (id i : String) (c : String × String × String × String) : Bool :=
  (decide (c.1 = id) && decide (c.2.1 = i)) || (decide (c.2.2.1 = id) && decide (c.2.2.2 = i))

/-- How many records of `t.connections` have `(id, i)` as an endpoint. -/
def endCount (t : NetworkTopology) (id i : String) : Nat :=
  (t.connections.filter (endMatchB id i)).length

/-- Whether a record matches the unordered endpoint pair
`(d1,i1)-(d2,i2)` (in either orientation). -/
def pairMatchB (d1 i1 d2 i2 : String) (c : String × String × String × String) : Bool :=
  decide (c = (d1, i1, d2, i2)) || decide (c = (d2, i2, d1, i1))

/-- How many records of `t.connections` match the unordered pair. -/
def pairCount (t : NetworkTopology) (d1 i1 d2 i2 : String) : Nat :=
  (t.connections.filter (pairMatchB d1 i1 d2 i2)).length

/-- Spec invariant 3: `connections` and the non-empty interface slots are
mutually consistent — every record has both slots set reciprocally to each
other, and every non-empty slot has exactly one matching record. -/
def ConnSlotConsistent (t : NetworkTopology) : Prop :=
  (∀ c ∈ t.connections,
    slotOf t c.1 c.2.1 = some (some (c.2.2.1, c.2.2.2)) ∧
    slotOf t c.2.2.1 c.2.2.2 = some (some (c.1, c.2.1))) ∧
  (∀ p ∈ t.devices, ∀ q ∈ p.2.interfaces, q.2.isSome = true → endCount t p.1 q.1 = 1)

instance (t : NetworkTopology) : Decidable (ConnSlotConsistent t) := by
  unfold ConnSlotConsistent
  infer_instance

/-- The success branch of `connect_devices` (both slots written
reciprocally, the ordered record added to the set). -/
def connectEffect (t : NetworkTopology) (d1 i1 d2 i2 : String) : NetworkTopology :=
  addConn (setSlot (setSlot t d1 i1 (some (d2, i2))) d2 i2 (some (d1, i1)))
    (d1, i1, d2, i2)

/-- Topologies reachable from an empty one by successful public
operations.  Devices are constructed standalone and then attached (spec
lifecycle), so an added device has all interface slots empty. -/
inductive Reachable : NetworkTopology → Prop where
  | init : ∀ name, Reachable (NetworkTopology.init name)
  | add : ∀ {t t' : NetworkTopology} {d : NetworkDevice}, Reachable t →
      (∀ p ∈ d.interfaces, p.2 = none) → t.add_device d = .ok t' → Reachable t'
  | connect : ∀ {t t' : NetworkTopology} {d1 i1 d2 i2 : String}, Reachable t →
      t.connect_devices d1 i1 d2 i2 = .ok t' → Reachable t'
  | disconnect : ∀ {t t' : NetworkTopology} {d1 i1 d2 i2 : String}, Reachable t →
      t.disconnect_devices d1 i1 d2 i2 = .ok t' → Reachable t'
  | remove : ∀ {t t' : NetworkTopology} {id : String}, Reachable t →
      t.remove_device id = .ok t' → Reachable t'

/-! ### Concrete demonstration states -/

/-- Unwrap a successful result (concrete demonstrations only ever apply
this to calls proven, by evaluation, to succeed). -/
def okOr (e : Except TopoError NetworkTopology) : NetworkTopology :=
  match e with
  | .ok t => t
  | .error _ => NetworkTopology.init "unreachable"

/-- A host constructed standalone with no ip (so no MAC is drawn). -/
def demoHost (id : String) : NetworkDevice := Host.mk id none none ""

/-- `add_device(Host a)` from an empty topology. -/
def demoT1 : NetworkTopology := okOr ((NetworkTopology.init "T").add_device (demoHost "a"))

/-- … then `add_device(Host b)`. -/
def demoT2 : NetworkTopology := okOr (demoT1.add_device (demoHost "b"))

/-- … then `connect_devices(a, eth0, b, eth0)`. -/
def demoT3 : NetworkTopology := okOr (demoT2.connect_devices "a" "eth0" "b" "eth0")

/-- … then `disconnect_devices(b, eth0, a, eth0)` — the endpoints in the
order opposite to the `connect_devices` call. -/
def demoT4 : NetworkTopology := okOr (demoT3.disconnect_devices "b" "eth0" "a" "eth0")

/-- … then `connect_devices(b, eth0, a, eth0)` on the disconnected pair. -/
def demoT5 : NetworkTopology := okOr (demoT4.connect_devices "b" "eth0" "a" "eth0")

/-- `remove_device(b)` applied to the connected state `demoT3`. -/
def demoT4R : NetworkTopology := okOr (demoT3.remove_device "b")

/-- The state after the host phase of `create_ring_network`. -/
def ringT2 (macGen : String → String) (n h : Nat) : NetworkTopology :=
  okOr (ringHostPhase macGen n h)

/-- The state returned by `create_ring_network`. -/
def ringT3 (macGen : String → String) (n h : Nat) : NetworkTopology :=
  okOr (create_ring_network macGen n h)

/-- The topology as it stands after a `connect_devices` call, successful
or not: the source validates everything before mutating anything, so a
call that raises leaves the object exactly as it was. -/
def connectAttemptState (t : NetworkTopology) (d1 i1 d2 i2 : String) : NetworkTopology :=
  match t.connect_devices d1 i1 d2 i2 with
  | .ok t' => t'
  | .error _ => t

/-- A device-document entry of a type the loader does not know. -/
def c10dd : DeviceDoc :=
  { id := "r1", type := "router", name := "r1", interfaces := ["eth0"],
    connections := [], properties := [] }

/-- A document holding only the unknown-type entry and a connection
record that references it. -/
def c10doc : TopoDoc :=
  { name := "L", devices := [("r1", c10dd)],
    connections := [("r1", "eth0", "r1", "eth0")] }

/-! ### Well-formedness (the spec invariants, §3) -/

/-- The per-device invariants of spec §3: the dict-model well-formedness
(id field matches the key, interface and property keys unique) and the
kind invariants — a switch has ports `port1..portN`, a `switch_type` in
`{l2, l3}`, a `vlans` table, and for `l3` the routing maps; a host has the
single interface `eth0` and, with a (truthy) ip, a stored MAC. -/
def DevWF (id : String) (d : NetworkDevice) : Prop :=
  d.device_id = id ∧ (intfKeysOf d).Nodup ∧ (d.properties.map Prod.fst).Nodup ∧
  ((d.device_type = "switch" ∧ intfKeysOf d = mkPorts d.interfaces.length ∧
      (alookup d.properties "switch_type" = some (.str "l2") ∨
        alookup d.properties "switch_type" = some (.str "l3")) ∧
      hasKey d.properties "vlans" = true ∧
      (alookup d.properties "switch_type" = some (.str "l3") →
        hasKey d.properties "routing_table" = true ∧
        hasKey d.properties "ip_interfaces" = true)) ∨
   (d.device_type = "host" ∧ intfKeysOf d = ["eth0"] ∧
      (optTruthy (alookup d.properties "ip_address") = true →
        hasKey d.properties "mac_address" = true)))

instance (id : String) (d : NetworkDevice) : Decidable (DevWF id d) := by
  unfold DevWF
  infer_instance

/-- The topology invariants of spec §3 (ids unique, every device
well-formed, and invariant 3 — records and slots mutually consistent;
invariants 1 and 2 are consequences of the latter). -/
def TopoWF (t : NetworkTopology) : Prop :=
  (deviceIds t).Nodup ∧ (∀ p ∈ t.devices, DevWF p.1 p.2) ∧
  (∀ c ∈ t.connections,
    slotOf t c.1 c.2.1 = some (some (c.2.2.1, c.2.2.2)) ∧
    slotOf t c.2.2.1 c.2.2.2 = some (some (c.1, c.2.1))) ∧
  (∀ p ∈ t.devices, ∀ q ∈ p.2.interfaces, q.2.isSome = true → endCount t p.1 q.1 = 1)

instance (t : NetworkTopology) : Decidable (TopoWF t) := by
  unfold TopoWF
  infer_instance

/-- How a reloaded device relates to the original: same id and type, the
same interface names with all slots cleared, and extensionally the same
property map. -/
def DevRel (orig ld : NetworkDevice) : Prop :=
  ld.device_id = orig.device_id ∧ ld.device_type = orig.device_type ∧
  ld.interfaces = orig.interfaces.map (fun q => (q.1, (none : Option Peer))) ∧
  (∀ k, alookup ld.properties k = alookup orig.properties k)

/-- Whether `(id, i)` is an endpoint of some already-replayed record. -/
def touched (processed : List (String × String × String × String)) (id i : String) : Prop :=
  ∃ c ∈ processed, endMatchB id i c = true

instance (processed : List (String × String × String × String)) (id i : String) :
    Decidable (touched processed id i) := by
  unfold touched
  infer_instance

/-- A small well-formed topology (a 2-port switch and a host with an ip,
connected) used to instantiate universally quantified theorems. -/
def wfDemo : NetworkTopology := okOr (do
  let t1 ← (NetworkTopology.init "WF").add_device (Switch.mk "s1" none 2 (.str "l2"))
  let t2 ← t1.add_device (Host.mk "h1" none (some (.str "10.0.0.5")) "02:00:00:01:02:03")
  t2.connect_devices "h1" "eth0" "s1" "port1")

/-! ### Association-list lemmas -/

theorem alookup_cons {β : Type} (a : String) (b : β) (rest : List (String × β)) (k : String) :
    alookup ((a, b) :: rest) k = if a = k then some b else alookup rest k := rfl

theorem aset_cons {β : Type} (a : String) (b : β) (rest : List (String × β)) (k : String) (v : β) :
    aset ((a, b) :: rest) k v = if a = k then (k, v) :: rest else (a, b) :: aset rest k v := rfl

theorem amod_cons {β : Type} (a : String) (b : β) (rest : List (String × β)) (k : String)
    (f : β → β) :
    amod ((a, b) :: rest) k f =
      (if a = k then (a, f b) else (a, b)) :: amod rest k f := rfl

theorem alookup_append_left {β : Type} {l₁ l₂ : List (String × β)} {k : String} {v : β}
    (h : alookup l₁ k = some v) : alookup (l₁ ++ l₂) k = some v := by
  induction l₁ with
  | nil => simp [alookup] at h
  | cons p rest ih =>
    obtain ⟨a, b⟩ := p
    by_cases hp : a = k
    · rw [alookup_cons, if_pos hp] at h
      rw [List.cons_append, alookup_cons, if_pos hp]
      exact h
    · rw [alookup_cons, if_neg hp] at h
      rw [List.cons_append, alookup_cons, if_neg hp]
      exact ih h

theorem alookup_append_right {β : Type} {l₁ l₂ : List (String × β)} {k : String}
    (h : alookup l₁ k = none) : alookup (l₁ ++ l₂) k = alookup l₂ k := by
  induction l₁ with
  | nil => simp [alookup]
  | cons p rest ih =>
    obtain ⟨a, b⟩ := p
    by_cases hp : a = k
    · rw [alookup_cons, if_pos hp] at h
      exact absurd h (by simp)
    · rw [alookup_cons, if_neg hp] at h
      rw [List.cons_append, alookup_cons, if_neg hp]
      exact ih h

theorem alookup_aset_self {β : Type} (l : List (String × β)) (k : String) (v : β) :
    alookup (aset l k v) k = some v := by
  induction l with
  | nil => simp [aset, alookup]
  | cons p rest ih =>
    obtain ⟨a, b⟩ := p
    by_cases hp : a = k
    · rw [aset_cons, if_pos hp, alookup_cons, if_pos rfl]
    · rw [aset_cons, if_neg hp, alookup_cons, if_neg hp]
      exact ih

theorem alookup_aset_ne {β : Type} (l : List (String × β)) {k k' : String} (v : β)
    (h : k' ≠ k) : alookup (aset l k v) k' = alookup l k' := by
  induction l with
  | nil => simp [aset, alookup, Ne.symm h]
  | cons p rest ih =>
    obtain ⟨a, b⟩ := p
    by_cases hp : a = k
    · rw [aset_cons, if_pos hp, alookup_cons, if_neg (Ne.symm h), alookup_cons]
      have : ¬ a = k' := by rw [hp]; exact Ne.symm h
      rw [if_neg this]
    · rw [aset_cons, if_neg hp, alookup_cons, alookup_cons]
      by_cases hq : a = k'
      · rw [if_pos hq, if_pos hq]
      · rw [if_neg hq, if_neg hq]
        exact ih

theorem map_fst_aset {β : Type} (l : List (String × β)) (k : String) (v : β)
    (h : hasKey l k = true) : (aset l k v).map Prod.fst = l.map Prod.fst := by
  induction l with
  | nil => simp [hasKey, alookup] at h
  | cons p rest ih =>
    obtain ⟨a, b⟩ := p
    by_cases hp : a = k
    · rw [aset_cons, if_pos hp]
      simp [hp]
    · rw [hasKey, alookup_cons, if_neg hp, ← hasKey] at h
      rw [aset_cons, if_neg hp]
      simp only [List.map_cons]
      rw [ih h]

theorem hasKey_iff_mem {β : Type} {l : List (String × β)} {k : String} :
    hasKey l k = true ↔ k ∈ l.map Prod.fst := by
  induction l with
  | nil => simp [hasKey, alookup]
  | cons p rest ih =>
    obtain ⟨a, b⟩ := p
    by_cases hp : a = k
    · simp [hasKey, alookup_cons, hp]
    · rw [hasKey, alookup_cons, if_neg hp, ← hasKey]
      simp only [List.map_cons, List.mem_cons]
      rw [ih]
      constructor
      · exact Or.inr
      · rintro (hka | hmem)
        · exact absurd hka.symm hp
        · exact hmem

theorem alookup_eq_some_mem {β : Type} {l : List (String × β)} {k : String} {v : β}
    (h : alookup l k = some v) : (k, v) ∈ l := by
  induction l with
  | nil => simp [alookup] at h
  | cons p rest ih =>
    obtain ⟨a, b⟩ := p
    by_cases hp : a = k
    · rw [alookup_cons, if_pos hp] at h
      cases h
      cases hp
      exact List.mem_cons_self _ _
    · rw [alookup_cons, if_neg hp] at h
      exact List.mem_cons_of_mem _ (ih h)

theorem alookup_of_mem_nodup {β : Type} {l : List (String × β)} {k : String} {v : β}
    (hmem : (k, v) ∈ l) (hnd : (l.map Prod.fst).Nodup) : alookup l k = some v := by
  induction l with
  | nil => simp at hmem
  | cons p rest ih =>
    obtain ⟨a, b⟩ := p
    simp only [List.map_cons, List.nodup_cons] at hnd
    rcases List.mem_cons.mp hmem with heq | hmem'
    · cases heq
      rw [alookup_cons, if_pos rfl]
    · have hak : ¬ a = k := by
        intro hak
        subst hak
        exact hnd.1 (List.mem_map.mpr ⟨(a, v), hmem', rfl⟩)
      rw [alookup_cons, if_neg hak]
      exact ih hmem' hnd.2

theorem alookup_amod_self {β : Type} (l : List (String × β)) (k : String) (f : β → β) :
    alookup (amod l k f) k = (alookup l k).map f := by
  induction l with
  | nil => simp [amod, alookup]
  | cons p rest ih =>
    obtain ⟨a, b⟩ := p
    by_cases hp : a = k
    · rw [amod_cons, if_pos hp, alookup_cons, if_pos hp, alookup_cons, if_pos hp]
      rfl
    · rw [amod_cons, if_neg hp, alookup_cons, if_neg hp, alookup_cons, if_neg hp]
      exact ih

theorem alookup_amod_ne {β : Type} (l : List (String × β)) {k k' : String} (f : β → β)
    (h : k' ≠ k) : alookup (amod l k f) k' = alookup l k' := by
  induction l with
  | nil => simp [amod, alookup]
  | cons p rest ih =>
    obtain ⟨a, b⟩ := p
    by_cases hp : a = k
    · have hak : ¬ a = k' := by rw [hp]; exact Ne.symm h
      rw [amod_cons, if_pos hp, alookup_cons, if_neg hak, alookup_cons, if_neg hak]
      exact ih
    · rw [amod_cons, if_neg hp, alookup_cons, alookup_cons]
      by_cases hq : a = k'
      · rw [if_pos hq, if_pos hq]
      · rw [if_neg hq, if_neg hq]
        exact ih

theorem map_fst_amod {β : Type} (l : List (String × β)) (k : String) (f : β → β) :
    (amod l k f).map Prod.fst = l.map Prod.fst := by
  induction l with
  | nil => simp [amod]
  | cons p rest ih =>
    obtain ⟨a, b⟩ := p
    by_cases hp : a = k
    · rw [amod_cons, if_pos hp]
      simp only [List.map_cons]
      rw [ih]
    · rw [amod_cons, if_neg hp]
      simp only [List.map_cons]
      rw [ih]

/-- Replacing the value at a present key: how a `filter`-count changes. -/
theorem length_filter_aset {β : Type} (P : String × β → Bool) (l : List (String × β))
    {k : String} {w : β} (v : β) (hmem : (k, w) ∈ l) (hnd : (l.map Prod.fst).Nodup) :
    ((aset l k v).filter P).length + (if P (k, w) then 1 else 0) =
      (l.filter P).length + (if P (k, v) then 1 else 0) := by
  induction l with
  | nil => simp at hmem
  | cons p rest ih =>
    obtain ⟨a, b⟩ := p
    simp only [List.map_cons, List.nodup_cons] at hnd
    rcases List.mem_cons.mp hmem with heq | hmem'
    · cases heq
      rw [aset_cons, if_pos rfl]
      simp only [List.filter_cons]
      by_cases hw : P (k, w) = true <;> by_cases hv : P (k, v) = true <;>
        simp [hw, hv]
    · have hak : ¬ a = k := by
        intro hak
        subst hak
        exact hnd.1 (List.mem_map.mpr ⟨(a, w), hmem', rfl⟩)
      rw [aset_cons, if_neg hak]
      simp only [List.filter_cons]
      have hstep := ih hmem' hnd.2
      by_cases hb : P (a, b) = true <;> simp [hb] <;> omega

/-! ### Decimal rendering of naturals (`f"...{n}"`) -/

/-- Decode a digit string back to the natural it denotes. -/
def decodeDigits (l : List Char) : Nat :=
  l.foldl (fun a c => a * 10 + (c.toNat - 48)) 0

theorem digitCh_toNat {n : Nat} (h : n < 10) : (digitCh n).toNat - 48 = n := by
  interval_cases n <;> decide

theorem decodeDigits_append_digit (l : List Char) (c : Char) :
    decodeDigits (l ++ [c]) = decodeDigits l * 10 + (c.toNat - 48) := by
  simp [decodeDigits, List.foldl_append]

theorem decodeDigits_natChars : ∀ (fuel n : Nat), n < fuel →
    decodeDigits (natChars fuel n) = n := by
  intro fuel
  induction fuel with
  | zero => intro n h; omega
  | succ fuel ih =>
    intro n h
    by_cases h10 : n < 10
    · simp [natChars, h10, decodeDigits, digitCh_toNat h10]
    · have hlt : n / 10 < fuel := by
        have := Nat.div_lt_self (by omega : 0 < n) (by omega : 1 < 10)
        omega
      simp only [natChars, h10, if_false]
      rw [decodeDigits_append_digit, ih (n / 10) hlt,
        digitCh_toNat (by omega : n % 10 < 10)]
      omega

theorem natToStr_inj {a b : Nat} (h : natToStr a = natToStr b) : a = b := by
  have hd : natChars (a + 1) a = natChars (b + 1) b := congrArg String.data h
  have ha := decodeDigits_natChars (a + 1) a (by omega)
  have hb := decodeDigits_natChars (b + 1) b (by omega)
  rw [← ha, ← hb, hd]

theorem swId_inj {a b : Nat} (h : swId a = swId b) : a = b := by
  have hd := congrArg String.data h
  rw [swId, swId, String.data_append, String.data_append] at hd
  have hlist := List.append_cancel_left hd
  exact natToStr_inj (String.ext hlist)

theorem hostId_inj {a b : Nat} (h : hostId a = hostId b) : a = b := by
  have hd := congrArg String.data h
  rw [hostId, hostId, String.data_append, String.data_append] at hd
  have hlist := List.append_cancel_left hd
  exact natToStr_inj (String.ext hlist)

theorem swId_ne_hostId (a b : Nat) : swId a ≠ hostId b := by
  intro h
  have hd := congrArg String.data h
  rw [swId, hostId, String.data_append, String.data_append] at hd
  rw [show ("switch" : String).data = ['s', 'w', 'i', 't', 'c', 'h'] from rfl,
    show ("host" : String).data = ['h', 'o', 's', 't'] from rfl] at hd
  simp only [List.cons_append, List.nil_append, List.cons.injEq] at hd
  exact absurd hd.1 (by decide)

/-! ### `Except`-valued folds -/

theorem exceptBind_ok {ε α β : Type} {e : Except ε α} {f : α → Except ε β} {c : β}
    (h : (e >>= f) = .ok c) : ∃ a, e = .ok a ∧ f a = .ok c := by
  cases e with
  | error err => simp [Bind.bind, Except.bind] at h
  | ok a => exact ⟨a, rfl, by simpa [Bind.bind, Except.bind] using h⟩

/-- Invariant preservation along a successful `foldlM` over `Except`. -/
theorem foldlM_ok_ind {σ α : Type} (P : σ → Prop) (step : σ → α → Except TopoError σ)
    (l : List α) : ∀ (s0 sF : σ), P s0 →
    (∀ s a s', a ∈ l → P s → step s a = .ok s' → P s') →
    l.foldlM step s0 = .ok sF → P sF := by
  induction l with
  | nil =>
    intro s0 sF h0 _ hok
    simp only [List.foldlM_nil, pure, Except.pure] at hok
    cases hok
    exact h0
  | cons a rest ih =>
    intro s0 sF h0 hstep hok
    rw [List.foldlM_cons] at hok
    obtain ⟨s1, hs1, hrest⟩ := exceptBind_ok hok
    exact ih s1 sF (hstep s0 a s1 (List.mem_cons_self a rest) h0 hs1)
      (fun s x s' hx => hstep s x s' (List.mem_cons_of_mem a hx)) hrest

/-! ### Effect lemmas for the topology operations -/

theorem setSlot_name (t : NetworkTopology) (d i : String) (p : Option Peer) :
    (setSlot t d i p).name = t.name := rfl

theorem setSlot_connections (t : NetworkTopology) (d i : String) (p : Option Peer) :
    (setSlot t d i p).connections = t.connections := rfl

theorem addConn_devices (t : NetworkTopology) (c : String × String × String × String) :
    (addConn t c).devices = t.devices := rfl

theorem addConn_connections (t : NetworkTopology) (c : String × String × String × String) :
    (addConn t c).connections =
      if c ∈ t.connections then t.connections else t.connections ++ [c] := rfl

theorem setSlot_devices (t : NetworkTopology) (d i : String) (p : Option Peer) :
    (setSlot t d i p).devices =
      amod t.devices d (fun dev => { dev with interfaces := aset dev.interfaces i p }) := rfl

theorem deviceIds_setSlot (t : NetworkTopology) (d i : String) (p : Option Peer) :
    deviceIds (setSlot t d i p) = deviceIds t := by
  unfold deviceIds
  rw [setSlot_devices]
  exact map_fst_amod _ _ _

theorem alookup_setSlot_devices_self (t : NetworkTopology) {d : String} (i : String)
    (p : Option Peer) {dev : NetworkDevice} (hd : alookup t.devices d = some dev) :
    alookup (setSlot t d i p).devices d =
      some { dev with interfaces := aset dev.interfaces i p } := by
  rw [setSlot_devices, alookup_amod_self, hd]
  rfl

theorem alookup_setSlot_devices_ne (t : NetworkTopology) (d i : String) (p : Option Peer)
    {x : String} (hx : x ≠ d) :
    alookup (setSlot t d i p).devices x = alookup t.devices x := by
  rw [setSlot_devices, alookup_amod_ne _ _ hx]

theorem typeOf_setSlot (t : NetworkTopology) (d i : String) (p : Option Peer) (x : String) :
    typeOf (setSlot t d i p) x = typeOf t x := by
  unfold typeOf setSlot
  by_cases hx : x = d
  · subst hx
    rw [alookup_amod_self]
    cases alookup t.devices x <;> rfl
  · rw [alookup_amod_ne _ _ hx]

theorem propOf_setSlot (t : NetworkTopology) (d i : String) (p : Option Peer) (x k : String) :
    propOf (setSlot t d i p) x k = propOf t x k := by
  unfold propOf setSlot
  by_cases hx : x = d
  · subst hx
    rw [alookup_amod_self]
    cases alookup t.devices x <;> rfl
  · rw [alookup_amod_ne _ _ hx]

theorem slotOf_setSlot_self (t : NetworkTopology) {d : String} (i : String) (p : Option Peer)
    {dev : NetworkDevice} (hd : alookup t.devices d = some dev) :
    slotOf (setSlot t d i p) d i = some p := by
  unfold slotOf setSlot
  rw [alookup_amod_self, hd]
  simp [alookup_aset_self]

theorem slotOf_setSlot_ne_dev (t : NetworkTopology) (d i : String) (p : Option Peer)
    {x : String} (y : String) (hx : x ≠ d) :
    slotOf (setSlot t d i p) x y = slotOf t x y := by
  unfold slotOf setSlot
  rw [alookup_amod_ne _ _ hx]

theorem slotOf_setSlot_ne_intf (t : NetworkTopology) (d i : String) (p : Option Peer)
    (x : String) {y : String} (hy : y ≠ i) :
    slotOf (setSlot t d i p) x y = slotOf t x y := by
  unfold slotOf setSlot
  by_cases hx : x = d
  · subst hx
    rw [alookup_amod_self]
    cases alookup t.devices x with
    | none => rfl
    | some dev => simp [alookup_aset_ne _ _ hy]
  · rw [alookup_amod_ne _ _ hx]

theorem slotOf_addConn (t : NetworkTopology) (c : String × String × String × String)
    (x y : String) : slotOf (addConn t c) x y = slotOf t x y := rfl

theorem typeOf_addConn (t : NetworkTopology) (c : String × String × String × String)
    (x : String) : typeOf (addConn t c) x = typeOf t x := rfl

theorem propOf_addConn (t : NetworkTopology) (c : String × String × String × String)
    (x k : String) : propOf (addConn t c) x k = propOf t x k := rfl

theorem typeOf_connectEffect (t : NetworkTopology) (d1 i1 d2 i2 : String) (x : String) :
    typeOf (connectEffect t d1 i1 d2 i2) x = typeOf t x := by
  unfold connectEffect
  rw [typeOf_addConn, typeOf_setSlot, typeOf_setSlot]

theorem propOf_connectEffect (t : NetworkTopology) (d1 i1 d2 i2 : String) (x k : String) :
    propOf (connectEffect t d1 i1 d2 i2) x k = propOf t x k := by
  unfold connectEffect
  rw [propOf_addConn, propOf_setSlot, propOf_setSlot]

theorem deviceIds_connectEffect (t : NetworkTopology) (d1 i1 d2 i2 : String) :
    deviceIds (connectEffect t d1 i1 d2 i2) = deviceIds t := by
  unfold connectEffect
  have h1 : deviceIds (addConn (setSlot (setSlot t d1 i1 (some (d2, i2))) d2 i2
      (some (d1, i1))) (d1, i1, d2, i2)) =
      deviceIds (setSlot (setSlot t d1 i1 (some (d2, i2))) d2 i2 (some (d1, i1))) := rfl
  rw [h1, deviceIds_setSlot, deviceIds_setSlot]

theorem connectEffect_connections (t : NetworkTopology) (d1 i1 d2 i2 : String) :
    (connectEffect t d1 i1 d2 i2).connections =
      if (d1, i1, d2, i2) ∈ t.connections then t.connections
      else t.connections ++ [(d1, i1, d2, i2)] := rfl

theorem connectEffect_name (t : NetworkTopology) (d1 i1 d2 i2 : String) :
    (connectEffect t d1 i1 d2 i2).name = t.name := rfl

theorem slotOf_connectEffect_d2 (t : NetworkTopology) (d1 i1 : String) {d2 : String}
    (i2 : String) (hd2 : (alookup t.devices d2).isSome = true) :
    slotOf (connectEffect t d1 i1 d2 i2) d2 i2 = some (some (d1, i1)) := by
  unfold connectEffect
  rw [slotOf_addConn]
  by_cases hx : d2 = d1
  · subst hx
    cases hs : alookup t.devices d2 with
    | none => rw [hs] at hd2; simp at hd2
    | some dev =>
      exact slotOf_setSlot_self _ _ _ (alookup_setSlot_devices_self _ _ _ hs)
  · cases hs : alookup t.devices d2 with
    | none => rw [hs] at hd2; simp at hd2
    | some dev =>
      exact slotOf_setSlot_self _ _ _
        ((alookup_setSlot_devices_ne _ _ _ _ hx).trans hs)

theorem slotOf_connectEffect_d1 (t : NetworkTopology) {d1 : String} (i1 : String)
    (d2 i2 : String) (hd1 : (alookup t.devices d1).isSome = true) :
    slotOf (connectEffect t d1 i1 d2 i2) d1 i1 = some (some (d2, i2)) := by
  cases hs : alookup t.devices d1 with
  | none => rw [hs] at hd1; simp at hd1
  | some dev =>
    unfold connectEffect
    rw [slotOf_addConn]
    by_cases hd : d2 = d1
    · subst hd
      by_cases hi : i2 = i1
      · subst hi
        rw [slotOf_setSlot_self _ _ _ (alookup_setSlot_devices_self _ _ _ hs)]
      · rw [slotOf_setSlot_ne_intf _ _ _ _ _ (fun h => hi h.symm),
          slotOf_setSlot_self _ _ _ hs]
    · rw [slotOf_setSlot_ne_dev _ _ _ _ _ (fun h => hd h.symm),
        slotOf_setSlot_self _ _ _ hs]

theorem slotOf_connectEffect_other (t : NetworkTopology) (d1 i1 d2 i2 : String)
    {x y : String} (h1 : ¬ (x = d1 ∧ y = i1)) (h2 : ¬ (x = d2 ∧ y = i2)) :
    slotOf (connectEffect t d1 i1 d2 i2) x y = slotOf t x y := by
  unfold connectEffect
  rw [slotOf_addConn]
  rcases Decidable.not_and_iff_or_not.mp h2 with hx | hy
  · rw [slotOf_setSlot_ne_dev _ _ _ _ _ hx]
    rcases Decidable.not_and_iff_or_not.mp h1 with hx' | hy'
    · rw [slotOf_setSlot_ne_dev _ _ _ _ _ hx']
    · rw [slotOf_setSlot_ne_intf _ _ _ _ _ hy']
  · rw [slotOf_setSlot_ne_intf _ _ _ _ _ hy]
    rcases Decidable.not_and_iff_or_not.mp h1 with hx' | hy'
    · rw [slotOf_setSlot_ne_dev _ _ _ _ _ hx']
    · rw [slotOf_setSlot_ne_intf _ _ _ _ _ hy']

theorem connect_devices_ok_intro {t : NetworkTopology} {dev1 dev2 : NetworkDevice}
    (d1 i1 d2 i2 : String)
    (hd1 : alookup t.devices d1 = some dev1) (hd2 : alookup t.devices d2 = some dev2)
    (hi1 : alookup dev1.interfaces i1 = some none)
    (hi2 : alookup dev2.interfaces i2 = some none) :
    t.connect_devices d1 i1 d2 i2 = .ok (connectEffect t d1 i1 d2 i2) := by
  unfold NetworkTopology.connect_devices connectEffect
  rw [hd1, hd2]
  dsimp only
  rw [hi1, hi2]
  simp

theorem connect_devices_ok_elim {t t' : NetworkTopology} {d1 i1 d2 i2 : String}
    (h : t.connect_devices d1 i1 d2 i2 = .ok t') :
    ∃ dev1 dev2 : NetworkDevice,
      alookup t.devices d1 = some dev1 ∧ alookup t.devices d2 = some dev2 ∧
      alookup dev1.interfaces i1 = some none ∧ alookup dev2.interfaces i2 = some none ∧
      t' = connectEffect t d1 i1 d2 i2 := by
  unfold NetworkTopology.connect_devices at h
  cases h1 : alookup t.devices d1 with
  | none => rw [h1] at h; simp at h
  | some dev1 =>
    rw [h1] at h
    dsimp only at h
    cases h2 : alookup t.devices d2 with
    | none => rw [h2] at h; simp at h
    | some dev2 =>
      rw [h2] at h
      dsimp only at h
      cases h3 : alookup dev1.interfaces i1 with
      | none => rw [h3] at h; simp at h
      | some slot1 =>
        rw [h3] at h
        dsimp only at h
        cases h4 : alookup dev2.interfaces i2 with
        | none => rw [h4] at h; simp at h
        | some slot2 =>
          rw [h4] at h
          dsimp only at h
          cases slot1 with
          | some q => simp at h
          | none =>
            cases slot2 with
            | some q => simp at h
            | none =>
              simp only [Option.isSome_none, Bool.false_eq_true, if_false] at h
              exact ⟨dev1, dev2, rfl, rfl, h3, h4, (Except.ok.inj h).symm⟩

theorem connect_devices_occupied {t : NetworkTopology} {dev1 dev2 : NetworkDevice}
    {s1 s2 : Option Peer} (d1 i1 d2 i2 : String)
    (hd1 : alookup t.devices d1 = some dev1) (hd2 : alookup t.devices d2 = some dev2)
    (hi1 : alookup dev1.interfaces i1 = some s1) (hi2 : alookup dev2.interfaces i2 = some s2)
    (hocc : s1.isSome = true ∨ s2.isSome = true) :
    t.connect_devices d1 i1 d2 i2 = .error .interfaceAlreadyConnected := by
  unfold NetworkTopology.connect_devices
  rw [hd1, hd2]
  dsimp only
  rw [hi1, hi2]
  rcases hocc with hs | hs
  · simp [hs]
  · cases s1 with
    | some q => simp
    | none => simp [hs]

theorem mem_connectEffect (t : NetworkTopology) (d1 i1 d2 i2 : String) :
    (d1, i1, d2, i2) ∈ (connectEffect t d1 i1 d2 i2).connections := by
  rw [connectEffect_connections]
  split
  · assumption
  · simp

theorem pairCount_pos_of_mem {t : NetworkTopology} {d1 i1 d2 i2 : String}
    (h : (d1, i1, d2, i2) ∈ t.connections) : 0 < pairCount t d1 i1 d2 i2 := by
  unfold pairCount
  exact List.length_pos_of_mem
    (List.mem_filter.mpr ⟨h, by simp [pairMatchB]⟩)

theorem slotOf_elim {t : NetworkTopology} {d i : String} {s : Option Peer}
    (h : slotOf t d i = some s) :
    ∃ dev : NetworkDevice, alookup t.devices d = some dev ∧ alookup dev.interfaces i = some s := by
  unfold slotOf at h
  cases hd : alookup t.devices d with
  | none => rw [hd] at h; simp at h
  | some dev => rw [hd] at h; exact ⟨dev, rfl, h⟩

/-! ### Claim C8 -/

/-- C8: a `connect_devices` call on a pair of endpoints of which at least
one slot is already occupied fails with `InterfaceAlreadyConnected`, and
the topology after the failed call — every check precedes every mutation
in the source, so it is the original object — has an identical `to_dict`
document. -/
theorem C8_connect_occupied_fails (t : NetworkTopology) (d1 i1 d2 i2 : String)
    (s1 s2 : Option Peer) (hs1 : slotOf t d1 i1 = some s1) (hs2 : slotOf t d2 i2 = some s2)
    (hocc : s1.isSome = true ∨ s2.isSome = true) :
    t.connect_devices d1 i1 d2 i2 = .error .interfaceAlreadyConnected ∧
    (connectAttemptState t d1 i1 d2 i2).to_dict = t.to_dict := by
  obtain ⟨dev1, hd1, hi1⟩ := slotOf_elim hs1
  obtain ⟨dev2, hd2, hi2⟩ := slotOf_elim hs2
  have herr := connect_devices_occupied d1 i1 d2 i2 hd1 hd2 hi1 hi2 hocc
  refine ⟨herr, ?_⟩
  unfold connectAttemptState
  rw [herr]

/-- C8 witness: in the connected two-host state, reconnecting the occupied
`eth0` slots fails with `InterfaceAlreadyConnected` and leaves the
document unchanged. -/
theorem C8_connect_occupied_fails_witness :
    demoT3.connect_devices "a" "eth0" "b" "eth0" = .error .interfaceAlreadyConnected ∧
    (connectAttemptState demoT3 "a" "eth0" "b" "eth0").to_dict = demoT3.to_dict :=
  C8_connect_occupied_fails demoT3 "a" "eth0" "b" "eth0"
    (some ("b", "eth0")) (some ("a", "eth0")) (by decide) (by decide) (Or.inl rfl)

/-! ### Claim C9 -/

/-- C9: `connect_devices` never requires distinct endpoints.  Connecting
an existing empty interface of a device to itself succeeds, stores the
self-referential peer `(d, i)` in the slot and adds the self-loop record
`(d, i, d, i)`; connecting two distinct empty interfaces of the same
device succeeds as well, with the two slots referencing each other. -/
theorem C9_self_connect (t : NetworkTopology) (d i i1 i2 : String) :
    (slotOf t d i = some none →
      t.connect_devices d i d i = .ok (connectEffect t d i d i) ∧
      slotOf (connectEffect t d i d i) d i = some (some (d, i)) ∧
      (d, i, d, i) ∈ (connectEffect t d i d i).connections) ∧
    (slotOf t d i1 = some none → slotOf t d i2 = some none → i1 ≠ i2 →
      t.connect_devices d i1 d i2 = .ok (connectEffect t d i1 d i2) ∧
      slotOf (connectEffect t d i1 d i2) d i1 = some (some (d, i2)) ∧
      slotOf (connectEffect t d i1 d i2) d i2 = some (some (d, i1)) ∧
      (d, i1, d, i2) ∈ (connectEffect t d i1 d i2).connections) := by
  constructor
  · intro hs
    obtain ⟨dev, hd, hi⟩ := slotOf_elim hs
    refine ⟨connect_devices_ok_intro d i d i hd hd hi hi, ?_, mem_connectEffect t d i d i⟩
    exact slotOf_connectEffect_d2 t d i i (by rw [hd]; rfl)
  · intro hs1 hs2 hne
    obtain ⟨dev, hd, hi1⟩ := slotOf_elim hs1
    obtain ⟨dev', hd', hi2⟩ := slotOf_elim hs2
    rw [hd] at hd'
    cases hd'
    refine ⟨connect_devices_ok_intro d i1 d i2 hd hd hi1 hi2, ?_, ?_,
      mem_connectEffect t d i1 d i2⟩
    · exact slotOf_connectEffect_d1 t i1 d i2 (by rw [hd]; rfl)
    · exact slotOf_connectEffect_d2 t d i1 i2 (by rw [hd]; rfl)

/-- C9 witness: on the well-formed demo topology, `port2` of the switch
can be connected to itself. -/
theorem C9_self_connect_witness :
    wfDemo.connect_devices "s1" "port2" "s1" "port2" =
      .ok (connectEffect wfDemo "s1" "port2" "s1" "port2") ∧
    slotOf (connectEffect wfDemo "s1" "port2" "s1" "port2") "s1" "port2" =
      some (some ("s1", "port2")) ∧
    ("s1", "port2", "s1", "port2") ∈
      (connectEffect wfDemo "s1" "port2" "s1" "port2").connections :=
  (C9_self_connect wfDemo "s1" "port2" "x" "y").1 (by decide)

/-! ### Claim C7 (corrected) -/

/-- C7 counterexample: from the reachable stale state left by a
reversed-order disconnect (`demoT4`, whose `connections` still holds the
record `(a, eth0, b, eth0)` although both slots are empty), the call
`connect_devices(b, eth0, a, eth0)` succeeds — and afterwards the
unordered pair `(b,eth0)-(a,eth0)` matches two records, not exactly one
as the claim states. -/
theorem C7_counterexample :
    demoT4.connect_devices "b" "eth0" "a" "eth0" = .ok demoT5 ∧
    slotOf demoT5 "b" "eth0" = some (some ("a", "eth0")) ∧
    ¬ pairCount demoT5 "b" "eth0" "a" "eth0" = 1 := by decide

/-- C7 as amended: for a successful `connect_devices(d1,i1,d2,i2)` on a
topology in which no record yet matches the unordered pair
`(d1,i1)-(d2,i2)` (true in every state satisfying spec invariant 3, since
both slots must be empty for the call to succeed), the post-state holds
the reciprocal slot references and exactly one matching record. -/
theorem C7_connect_post (t t' : NetworkTopology) (d1 i1 d2 i2 : String)
    (hpair : pairCount t d1 i1 d2 i2 = 0)
    (hok : t.connect_devices d1 i1 d2 i2 = .ok t') :
    slotOf t' d1 i1 = some (some (d2, i2)) ∧
    slotOf t' d2 i2 = some (some (d1, i1)) ∧
    pairCount t' d1 i1 d2 i2 = 1 := by
  obtain ⟨dev1, dev2, hd1, hd2, hi1, hi2, ht'⟩ := connect_devices_ok_elim hok
  subst ht'
  refine ⟨slotOf_connectEffect_d1 t i1 d2 i2 (by rw [hd1]; rfl),
    slotOf_connectEffect_d2 t d1 i1 i2 (by rw [hd2]; rfl), ?_⟩
  have hnotmem : (d1, i1, d2, i2) ∉ t.connections := by
    intro hmem
    have := pairCount_pos_of_mem hmem
    omega
  unfold pairCount at hpair ⊢
  rw [connectEffect_connections, if_neg hnotmem, List.filter_append]
  simp only [List.length_append, hpair]
  simp [pairMatchB]

/-- C7 witness: connecting the two fresh hosts of `demoT2` (no record
matches the pair beforehand) yields reciprocal slots and exactly one
matching record. -/
theorem C7_connect_post_witness :
    slotOf demoT3 "a" "eth0" = some (some ("b", "eth0")) ∧
    slotOf demoT3 "b" "eth0" = some (some ("a", "eth0")) ∧
    pairCount demoT3 "a" "eth0" "b" "eth0" = 1 :=
  C7_connect_post demoT2 demoT3 "a" "eth0" "b" "eth0" (by decide) (by decide)

/-! ### Claim C1 (code bug) -/

/-- C1 fails on the code: the state `demoT4`, reached from an empty
topology by the successful public calls `add_device(Host a)`,
`add_device(Host b)`, `connect_devices(a,eth0,b,eth0)`,
`disconnect_devices(b,eth0,a,eth0)`, still holds the connection record
`(a,eth0,b,eth0)` although both of its slots are empty
(`disconnect_devices` removes only the exact ordered tuple), violating
the mutual-consistency invariant. -/
theorem C1_reachable_state_inconsistent :
    ∃ t : NetworkTopology, Reachable t ∧ ¬ ConnSlotConsistent t := by
  refine ⟨demoT4, ?_, by decide⟩
  have h0 : Reachable (NetworkTopology.init "T") := Reachable.init "T"
  have s1 : ∀ p ∈ (demoHost "a").interfaces, p.2 = none := by decide
  have e1 : (NetworkTopology.init "T").add_device (demoHost "a") = .ok demoT1 := by decide
  have h1 : Reachable demoT1 := Reachable.add h0 s1 e1
  have s2 : ∀ p ∈ (demoHost "b").interfaces, p.2 = none := by decide
  have e2 : demoT1.add_device (demoHost "b") = .ok demoT2 := by decide
  have h2 : Reachable demoT2 := Reachable.add h1 s2 e2
  have e3 : demoT2.connect_devices "a" "eth0" "b" "eth0" = .ok demoT3 := by decide
  have h3 : Reachable demoT3 := Reachable.connect h2 e3
  have e4 : demoT3.disconnect_devices "b" "eth0" "a" "eth0" = .ok demoT4 := by decide
  exact Reachable.disconnect h3 e4

/-! ### Claim C2 (code bug) -/

/-- C2 fails on the code: disconnecting the pair connected as
`(a,eth0)-(b,eth0)` with the endpoints passed in the opposite order
succeeds and clears both slots, but the record for the unordered pair is
NOT removed from `connections` (the source only discards the exact
ordered tuple `(b,eth0,a,eth0)`, which is absent). -/
theorem C2_reversed_disconnect_keeps_record :
    demoT3.disconnect_devices "b" "eth0" "a" "eth0" = .ok demoT4 ∧
    slotOf demoT4 "a" "eth0" = some none ∧
    slotOf demoT4 "b" "eth0" = some none ∧
    pairCount demoT4 "a" "eth0" "b" "eth0" = 1 := by decide

/-! ### Claim C4 (code bug) -/

/-- C4 fails on the code: removing device `b` of the connected pair
(`b` was the second endpoint of the `connect_devices` call) deletes the
device and clears the peer slot on `a`, but the record
`(a,eth0,b,eth0)` — which references `b` as an endpoint — survives in
`connections`, because the cascading disconnect passes the endpoints in
reversed order and therefore fails to remove the ordered tuple. -/
theorem C4_remove_device_leaves_record :
    demoT3.remove_device "b" = .ok demoT4R ∧
    hasKey demoT4R.devices "b" = false ∧
    slotOf demoT4R "a" "eth0" = some none ∧
    demoT4R.connections = [("a", "eth0", "b", "eth0")] := by decide

/-! ### Device-constructor lemmas -/

theorem append_natToStr_inj (s : String) {a b : Nat}
    (h : s ++ natToStr a = s ++ natToStr b) : a = b := by
  have hd := congrArg String.data h
  rw [String.data_append, String.data_append] at hd
  exact natToStr_inj (String.ext (List.append_cancel_left hd))

theorem mkPorts_nodup (n : Nat) : (mkPorts n).Nodup := by
  unfold mkPorts
  refine List.Nodup.map ?_ (List.nodup_range n)
  intro a b hab
  have := append_natToStr_inj "port" hab
  omega

theorem add_interface_device_id (d : NetworkDevice) (x : String) :
    (d.add_interface x).device_id = d.device_id := by
  unfold NetworkDevice.add_interface
  split <;> rfl

theorem add_interface_device_type (d : NetworkDevice) (x : String) :
    (d.add_interface x).device_type = d.device_type := by
  unfold NetworkDevice.add_interface
  split <;> rfl

theorem add_interface_properties (d : NetworkDevice) (x : String) :
    (d.add_interface x).properties = d.properties := by
  unfold NetworkDevice.add_interface
  split <;> rfl

theorem add_interface_name (d : NetworkDevice) (x : String) :
    (d.add_interface x).name = d.name := by
  unfold NetworkDevice.add_interface
  split <;> rfl

theorem foldl_add_interface_device_id (l : List String) (d : NetworkDevice) :
    (l.foldl NetworkDevice.add_interface d).device_id = d.device_id := by
  induction l generalizing d with
  | nil => rfl
  | cons x rest ih => rw [List.foldl_cons, ih, add_interface_device_id]

theorem foldl_add_interface_device_type (l : List String) (d : NetworkDevice) :
    (l.foldl NetworkDevice.add_interface d).device_type = d.device_type := by
  induction l generalizing d with
  | nil => rfl
  | cons x rest ih => rw [List.foldl_cons, ih, add_interface_device_type]

theorem foldl_add_interface_properties (l : List String) (d : NetworkDevice) :
    (l.foldl NetworkDevice.add_interface d).properties = d.properties := by
  induction l generalizing d with
  | nil => rfl
  | cons x rest ih => rw [List.foldl_cons, ih, add_interface_properties]

theorem foldl_add_interface_name (l : List String) (d : NetworkDevice) :
    (l.foldl NetworkDevice.add_interface d).name = d.name := by
  induction l generalizing d with
  | nil => rfl
  | cons x rest ih => rw [List.foldl_cons, ih, add_interface_name]

theorem hasKey_append {β : Type} (l₁ l₂ : List (String × β)) (k : String) :
    hasKey (l₁ ++ l₂) k = (hasKey l₁ k || hasKey l₂ k) := by
  cases h : alookup l₁ k with
  | none => rw [hasKey, alookup_append_right h]; rw [hasKey] at *; rw [h]; rfl
  | some v => rw [hasKey, alookup_append_left h]; rw [hasKey] at *; rw [h]; rfl

theorem foldl_add_interface_fresh (names : List String) (d : NetworkDevice)
    (hnd : names.Nodup) (hfresh : ∀ x ∈ names, hasKey d.interfaces x = false) :
    (names.foldl NetworkDevice.add_interface d).interfaces =
      d.interfaces ++ names.map (fun s => (s, none)) := by
  induction names generalizing d with
  | nil => simp
  | cons x rest ih =>
    rw [List.foldl_cons]
    have hx : hasKey d.interfaces x = false := hfresh x (List.mem_cons_self _ _)
    have hadd : (d.add_interface x).interfaces = d.interfaces ++ [(x, none)] := by
      unfold NetworkDevice.add_interface
      rw [hx]
      simp
    rw [List.nodup_cons] at hnd
    rw [ih _ hnd.2 ?_, hadd]
    · simp
    · intro y hy
      rw [hadd, hasKey_append]
      have hyd : hasKey d.interfaces y = false := hfresh y (List.mem_cons_of_mem _ hy)
      have hyx : ¬ x = y := fun he => hnd.1 (he ▸ hy)
      rw [hyd]
      simp [hasKey, alookup, hyx]

theorem set_property_device_id (d : NetworkDevice) (k : String) (v : Value) :
    (d.set_property k v).device_id = d.device_id := rfl

theorem set_property_properties (d : NetworkDevice) (k : String) (v : Value) :
    (d.set_property k v).properties = aset d.properties k v := rfl

theorem set_property_device_type (d : NetworkDevice) (k : String) (v : Value) :
    (d.set_property k v).device_type = d.device_type := rfl

theorem set_property_interfaces (d : NetworkDevice) (k : String) (v : Value) :
    (d.set_property k v).interfaces = d.interfaces := rfl

theorem foldl_set_property_device_id (l : List (String × Value)) (d : NetworkDevice) :
    (l.foldl (fun d' q => d'.set_property q.1 q.2) d).device_id = d.device_id := by
  induction l generalizing d with
  | nil => rfl
  | cons x rest ih => rw [List.foldl_cons, ih]; rfl

theorem foldl_set_property_device_type (l : List (String × Value)) (d : NetworkDevice) :
    (l.foldl (fun d' q => d'.set_property q.1 q.2) d).device_type = d.device_type := by
  induction l generalizing d with
  | nil => rfl
  | cons x rest ih => rw [List.foldl_cons, ih]; rfl

theorem foldl_set_property_interfaces (l : List (String × Value)) (d : NetworkDevice) :
    (l.foldl (fun d' q => d'.set_property q.1 q.2) d).interfaces = d.interfaces := by
  induction l generalizing d with
  | nil => rfl
  | cons x rest ih => rw [List.foldl_cons, ih]; rfl

theorem Switch_mk_device_id (id : String) (nm : Option String) (np : Nat) (st : Value) :
    (Switch.mk id nm np st).device_id = id := by
  unfold Switch.mk
  split <;> simp [set_property_device_id, foldl_add_interface_device_id, NetworkDevice.init]

theorem Switch_mk_device_type (id : String) (nm : Option String) (np : Nat) (st : Value) :
    (Switch.mk id nm np st).device_type = "switch" := by
  unfold Switch.mk
  split <;> simp [set_property_device_type, foldl_add_interface_device_type, NetworkDevice.init]

theorem Switch_mk_interfaces (id : String) (nm : Option String) (np : Nat) (st : Value) :
    (Switch.mk id nm np st).interfaces = (mkPorts np).map (fun s => (s, none)) := by
  unfold Switch.mk
  have hbase : ((mkPorts np).foldl NetworkDevice.add_interface
      (NetworkDevice.init id "switch" nm)).interfaces = (mkPorts np).map (fun s => (s, none)) := by
    rw [foldl_add_interface_fresh _ _ (mkPorts_nodup np) (fun x _ => by rfl)]
    rfl
  split <;> simp [set_property_interfaces, hbase]

theorem Host_mk_device_id (id : String) (nm : Option String) (ip : Option Value) (mac : String) :
    (Host.mk id nm ip mac).device_id = id := by
  unfold Host.mk
  split
  · split <;> rfl
  · rfl

theorem Host_mk_device_type (id : String) (nm : Option String) (ip : Option Value) (mac : String) :
    (Host.mk id nm ip mac).device_type = "host" := by
  unfold Host.mk
  split
  · split <;> rfl
  · rfl

theorem Host_mk_interfaces (id : String) (nm : Option String) (ip : Option Value) (mac : String) :
    (Host.mk id nm ip mac).interfaces = [("eth0", none)] := by
  unfold Host.mk
  have hadd : ((NetworkDevice.init id "host" nm).add_interface "eth0").interfaces =
      [("eth0", none)] := rfl
  split
  · split <;> simp [set_property_interfaces, hadd]
  · exact hadd

theorem add_device_ok_elim {t : NetworkTopology} {d : NetworkDevice} {t' : NetworkTopology}
    (h : t.add_device d = .ok t') :
    hasKey t.devices d.device_id = false ∧
    t' = { t with devices := t.devices ++ [(d.device_id, d)] } := by
  unfold NetworkTopology.add_device at h
  by_cases hk : hasKey t.devices d.device_id = true
  · rw [if_pos hk] at h
    simp at h
  · rw [if_neg hk] at h
    exact ⟨Bool.not_eq_true _ ▸ Bool.of_not_eq_true hk, (Except.ok.inj h).symm⟩

/-! ### Claim C10 -/

theorem mem_unique_of_nodup {β : Type} {l : List (String × β)} {k : String} {v v' : β}
    (hnd : (l.map Prod.fst).Nodup) (h1 : (k, v) ∈ l) (h2 : (k, v') ∈ l) : v = v' := by
  have e1 := alookup_of_mem_nodup h1 hnd
  have e2 := alookup_of_mem_nodup h2 hnd
  rw [e1] at e2
  exact Option.some.inj e2

theorem alookup_amod_none {β : Type} (l : List (String × β)) (k x : String) (f : β → β)
    (h : alookup l x = none) : alookup (amod l k f) x = none := by
  by_cases hx : x = k
  · subst hx
    rw [alookup_amod_self, h]
    rfl
  · rw [alookup_amod_ne _ _ hx]
    exact h

theorem alookup_connectEffect_none {t : NetworkTopology} {id : String}
    (d1 i1 d2 i2 : String) (h : alookup t.devices id = none) :
    alookup (connectEffect t d1 i1 d2 i2).devices id = none := by
  show alookup (setSlot (setSlot t d1 i1 (some (d2, i2))) d2 i2 (some (d1, i1))).devices id = none
  rw [setSlot_devices, setSlot_devices]
  exact alookup_amod_none _ _ _ _ (alookup_amod_none _ _ _ _ h)

/-- A fold fails when some element's step must fail from any state
satisfying a preserved invariant. -/
theorem foldlM_err_of_mem {σ α : Type} (P : σ → Prop) (step : σ → α → Except TopoError σ)
    (l : List α) (c : α) (hc : c ∈ l)
    (hpres : ∀ s a s', a ∈ l → P s → step s a = .ok s' → P s')
    (hfail : ∀ s, P s → ∀ s', step s c ≠ .ok s') :
    ∀ s0 sF, P s0 → l.foldlM step s0 ≠ .ok sF := by
  induction l with
  | nil => simp at hc
  | cons a rest ih =>
    intro s0 sF h0 hok
    rw [List.foldlM_cons] at hok
    obtain ⟨s1, hs1, hrest⟩ := exceptBind_ok hok
    rcases List.mem_cons.mp hc with hca | hcr
    · subst hca
      exact hfail s0 h0 s1 hs1
    · exact ih hcr (fun s x s' hx => hpres s x s' (List.mem_cons_of_mem _ hx)) s1 sF
        (hpres s0 a s1 (List.mem_cons_self _ _) h0 hs1) hrest

theorem connect_devices_missing_device {t : NetworkTopology} {id : String}
    (d1 i1 d2 i2 : String) (hid : alookup t.devices id = none)
    (href : d1 = id ∨ d2 = id) :
    t.connect_devices d1 i1 d2 i2 = .error .deviceNotFound := by
  unfold NetworkTopology.connect_devices
  rcases href with h1 | h2
  · subst h1
    rw [hid]
  · subst h2
    cases hq : alookup t.devices d1 with
    | none => rfl
    | some dev1 =>
      rw [hid]

/-- The device-phase invariant for C10: the skipped id stays unmapped. -/
theorem load_devices_skip_invariant (doc : TopoDoc) (macGen : String → String)
    {id : String} {dd : DeviceDoc}
    (hnd : (doc.devices.map Prod.fst).Nodup) (hmem : (id, dd) ∈ doc.devices)
    (hsw : dd.type ≠ "switch") (hho : dd.type ≠ "host") :
    ∀ t1, load_devices doc macGen = .ok t1 → alookup t1.devices id = none := by
  intro t1 hok
  unfold load_devices at hok
  refine foldlM_ok_ind (fun acc => alookup acc.devices id = none)
    (load_device_step macGen) doc.devices (NetworkTopology.init doc.name) t1 (by rfl) ?_ hok
  intro s a s' ha hs hstep
  obtain ⟨k, dk⟩ := a
  have hkne : dk.type = "switch" ∨ dk.type = "host" → ¬ k = id := by
    rintro hty rfl
    have heq := mem_unique_of_nodup hnd hmem ha
    subst heq
    rcases hty with h | h
    · exact hsw h
    · exact hho h
  unfold load_device_step at hstep
  dsimp only at hstep
  by_cases hty1 : dk.type = "switch"
  · rw [if_pos hty1] at hstep
    obtain ⟨hfree, rfl⟩ := add_device_ok_elim hstep
    have hdid : (dk.properties.foldl (fun d' q => d'.set_property q.1 q.2)
        (Switch.mk k (some dk.name) dk.interfaces.length
          ((alookup dk.properties "switch_type").getD (.str "l2")))).device_id = k := by
      rw [foldl_set_property_device_id, Switch_mk_device_id]
    show alookup (s.devices ++ [_]) id = none
    rw [alookup_append_right hs, hdid, alookup_cons]
    rw [if_neg (hkne (Or.inl hty1))]
    rfl
  · rw [if_neg hty1] at hstep
    by_cases hty2 : dk.type = "host"
    · rw [if_pos hty2] at hstep
      obtain ⟨hfree, rfl⟩ := add_device_ok_elim hstep
      have hdid : (dk.properties.foldl (fun d' q => d'.set_property q.1 q.2)
          (Host.mk k (some dk.name) (alookup dk.properties "ip_address")
            (macGen k))).device_id = k := by
        rw [foldl_set_property_device_id, Host_mk_device_id]
      show alookup (s.devices ++ [_]) id = none
      rw [alookup_append_right hs, hdid, alookup_cons]
      rw [if_neg (hkne (Or.inr hty2))]
      rfl
    · rw [if_neg hty2] at hstep
      cases hstep
      exact hs

/-- C10: a device entry whose type is neither `switch` nor `host` is
silently skipped by the loader — after the device phase (and after a
whole successful load) no device with that id exists — and a connection
record referencing the skipped id makes the `connect_devices` replay fail
with `DeviceNotFound`, so a document containing such a record cannot load
successfully. -/
theorem C10_load_skips_unknown_type (doc : TopoDoc) (macGen : String → String)
    (id : String) (dd : DeviceDoc)
    (hnd : (doc.devices.map Prod.fst).Nodup) (hmem : (id, dd) ∈ doc.devices)
    (hsw : dd.type ≠ "switch") (hho : dd.type ≠ "host") :
    (∀ t1, load_devices doc macGen = .ok t1 → alookup t1.devices id = none) ∧
    (∀ t, NetworkTopology.load_from_file doc macGen = .ok t → alookup t.devices id = none) ∧
    (∀ (t' : NetworkTopology) (c : String × String × String × String),
      (c.1 = id ∨ c.2.2.1 = id) → alookup t'.devices id = none →
      t'.connect_devices c.1 c.2.1 c.2.2.1 c.2.2.2 = .error .deviceNotFound) ∧
    (∀ c ∈ doc.connections, (c.1 = id ∨ c.2.2.1 = id) →
      ∀ t, NetworkTopology.load_from_file doc macGen ≠ .ok t) := by
  have hphase := load_devices_skip_invariant doc macGen hnd hmem hsw hho
  have hconnstep : ∀ (s : NetworkTopology) (c : String × String × String × String)
      (s' : NetworkTopology), alookup s.devices id = none →
      s.connect_devices c.1 c.2.1 c.2.2.1 c.2.2.2 = .ok s' →
      alookup s'.devices id = none := by
    intro s c s' hnone hok
    obtain ⟨dev1, dev2, _, _, _, _, rfl⟩ := connect_devices_ok_elim hok
    exact alookup_connectEffect_none _ _ _ _ hnone
  refine ⟨hphase, ?_, ?_, ?_⟩
  · intro t hok
    unfold NetworkTopology.load_from_file at hok
    obtain ⟨t1, h1, h2⟩ := exceptBind_ok hok
    exact foldlM_ok_ind (fun acc => alookup acc.devices id = none) _ doc.connections t1 t
      (hphase t1 h1) (fun s c s' _ hs hok' => hconnstep s c s' hs hok') h2
  · intro t' c href hnone
    exact connect_devices_missing_device c.1 c.2.1 c.2.2.1 c.2.2.2 hnone href
  · intro c hcmem href t hok
    unfold NetworkTopology.load_from_file at hok
    obtain ⟨t1, h1, h2⟩ := exceptBind_ok hok
    refine foldlM_err_of_mem (fun acc => alookup acc.devices id = none) _ doc.connections c
      hcmem (fun s a s' _ hs hok' => hconnstep s a s' hs hok') ?_ t1 t (hphase t1 h1) h2
    intro s hs s' hok'
    rw [connect_devices_missing_device c.1 c.2.1 c.2.2.1 c.2.2.2 hs href] at hok'
    exact Except.noConfusion hok'

/-- C10 witness: the document `c10doc` (one `router`-typed entry plus a
record referencing it) instantiates every part of the claim. -/
theorem C10_load_skips_unknown_type_witness :
    (∀ t1, load_devices c10doc (fun _ => "") = .ok t1 → alookup t1.devices "r1" = none) ∧
    (∀ t, NetworkTopology.load_from_file c10doc (fun _ => "") = .ok t →
      alookup t.devices "r1" = none) ∧
    (∀ (t' : NetworkTopology) (c : String × String × String × String),
      (c.1 = "r1" ∨ c.2.2.1 = "r1") → alookup t'.devices "r1" = none →
      t'.connect_devices c.1 c.2.1 c.2.2.1 c.2.2.2 = .error .deviceNotFound) ∧
    (∀ c ∈ c10doc.connections, (c.1 = "r1" ∨ c.2.2.1 = "r1") →
      ∀ t, NetworkTopology.load_from_file c10doc (fun _ => "") ≠ .ok t) :=
  C10_load_skips_unknown_type c10doc (fun _ => "") "r1" c10dd
    (by decide) (by decide) (by decide) (by decide)

/-! ### Host-phase lemmas for the ring generator -/

theorem hasKey_false_iff {β : Type} {l : List (String × β)} {k : String} :
    hasKey l k = false ↔ alookup l k = none := by
  rw [hasKey]
  cases alookup l k <;> simp

theorem add_device_lookup_pres {t : NetworkTopology} {d : NetworkDevice} {t' : NetworkTopology}
    (h : t.add_device d = .ok t') {x : String} {dev : NetworkDevice}
    (hx : alookup t.devices x = some dev) : alookup t'.devices x = some dev := by
  obtain ⟨_, rfl⟩ := add_device_ok_elim h
  exact alookup_append_left hx

theorem add_device_lookup_new {t : NetworkTopology} {d : NetworkDevice} {t' : NetworkTopology}
    (h : t.add_device d = .ok t') : alookup t'.devices d.device_id = some d := by
  obtain ⟨hfree, rfl⟩ := add_device_ok_elim h
  rw [alookup_append_right (hasKey_false_iff.mp hfree), alookup_cons, if_pos rfl]

theorem add_device_lookup_none {t : NetworkTopology} {d : NetworkDevice} {t' : NetworkTopology}
    (h : t.add_device d = .ok t') {x : String} (hx : alookup t.devices x = none)
    (hne : d.device_id ≠ x) : alookup t'.devices x = none := by
  obtain ⟨_, rfl⟩ := add_device_ok_elim h
  rw [alookup_append_right hx, alookup_cons, if_neg hne]
  rfl

theorem add_device_connections {t : NetworkTopology} {d : NetworkDevice} {t' : NetworkTopology}
    (h : t.add_device d = .ok t') : t'.connections = t.connections := by
  obtain ⟨_, rfl⟩ := add_device_ok_elim h
  rfl

/-- The bundled invariant carried through the phases of
`create_ring_network` before the ring loop: every id of host shape is
host-typed once present, and every connection record so far has a
host-typed first endpoint. -/
def HostPhaseInv (t : NetworkTopology) : Prop :=
  (∀ i : Nat, hasKey t.devices (hostId (i + 1)) = true →
    typeOf t (hostId (i + 1)) = some "host") ∧
  (∀ c ∈ t.connections, typeOf t c.1 = some "host")

theorem HostPhaseInv_switch_step {n : Nat} : ∀ (s : NetworkTopology) (i : Nat)
    (s' : NetworkTopology), i ∈ List.range n → HostPhaseInv s →
    ringSwitchStep s i = .ok s' → HostPhaseInv s' := by
  intro s i s' _ hP hstep
  unfold ringSwitchStep at hstep
  have hid : (Switch.mk (swId (i + 1)) (some ("Switch " ++ natToStr (i + 1))) 24
      (.str "l2")).device_id = swId (i + 1) := Switch_mk_device_id _ _ _ _
  constructor
  · intro j hkey
    obtain ⟨hfree, heq⟩ := add_device_ok_elim hstep
    rw [heq] at hkey ⊢
    simp only [hasKey_append, Bool.or_eq_true] at hkey
    rcases hkey with hk | hk
    · have := hP.1 j hk
      unfold typeOf at this ⊢
      cases hkk : alookup s.devices (hostId (j + 1)) with
      | none => rw [hkk] at this; simp at this
      | some dev =>
        rw [hkk] at this
        rw [alookup_append_left hkk]
        exact this
    · rw [hid] at hk
      rw [hasKey, alookup_cons] at hk
      by_cases hsw : swId (i + 1) = hostId (j + 1)
      · exact absurd hsw (swId_ne_hostId _ _)
      · rw [if_neg hsw] at hk
        simp [alookup] at hk
  · intro c hc
    obtain ⟨hfree, heq⟩ := add_device_ok_elim hstep
    rw [heq] at hc ⊢
    have hc' : c ∈ s.connections := hc
    have := hP.2 c hc'
    unfold typeOf at this ⊢
    cases hkk : alookup s.devices c.1 with
    | none => rw [hkk] at this; simp at this
    | some dev =>
      rw [hkk] at this
      rw [alookup_append_left hkk]
      exact this

theorem HostPhaseInv_hostadd_step (macGen : String → String) {h : Nat} :
    ∀ (s : NetworkTopology) (i : Nat) (s' : NetworkTopology), i ∈ List.range h →
    HostPhaseInv s → ringHostAddStep macGen s i = .ok s' → HostPhaseInv s' := by
  intro s i s' _ hP hstep
  unfold ringHostAddStep at hstep
  have hid : (Host.mk (hostId (i + 1)) (some ("Host " ++ natToStr (i + 1)))
      (some (.str ("192.168.1." ++ natToStr (100 + (i + 1)))))
      (macGen (hostId (i + 1)))).device_id = hostId (i + 1) := Host_mk_device_id _ _ _ _
  have hty : (Host.mk (hostId (i + 1)) (some ("Host " ++ natToStr (i + 1)))
      (some (.str ("192.168.1." ++ natToStr (100 + (i + 1)))))
      (macGen (hostId (i + 1)))).device_type = "host" := Host_mk_device_type _ _ _ _
  constructor
  · intro j hkey
    obtain ⟨hfree, heq⟩ := add_device_ok_elim hstep
    rw [heq] at hkey ⊢
    simp only [hasKey_append, Bool.or_eq_true] at hkey
    rcases hkey with hk | hk
    · have := hP.1 j hk
      unfold typeOf at this ⊢
      cases hkk : alookup s.devices (hostId (j + 1)) with
      | none => rw [hkk] at this; simp at this
      | some dev =>
        rw [hkk] at this
        rw [alookup_append_left hkk]
        exact this
    · rw [hid] at hk
      rw [hasKey, alookup_cons] at hk
      by_cases hij : hostId (i + 1) = hostId (j + 1)
      · rw [hid] at hfree
        unfold typeOf
        rw [← hij, alookup_append_right (hasKey_false_iff.mp hfree), alookup_cons, hid,
          if_pos rfl]
        simp [hty]
      · rw [if_neg hij] at hk
        simp [alookup] at hk
  · intro c hc
    obtain ⟨hfree, heq⟩ := add_device_ok_elim hstep
    rw [heq] at hc ⊢
    have hc' : c ∈ s.connections := hc
    have := hP.2 c hc'
    unfold typeOf at this ⊢
    cases hkk : alookup s.devices c.1 with
    | none => rw [hkk] at this; simp at this
    | some dev =>
      rw [hkk] at this
      rw [alookup_append_left hkk]
      exact this

theorem getAvailOf_elim {t : NetworkTopology} {id : String} {x : String}
    (h : getAvailOf t id = some x) :
    ∃ dev : NetworkDevice, alookup t.devices id = some dev ∧
      dev.get_available_interface = some x := by
  unfold getAvailOf at h
  cases hd : alookup t.devices id with
  | none => rw [hd] at h; simp at h
  | some dev => rw [hd] at h; exact ⟨dev, rfl, h⟩

theorem hasKey_of_getAvail {t : NetworkTopology} {id : String} {x : String}
    (h : getAvailOf t id = some x) : hasKey t.devices id = true := by
  obtain ⟨dev, hd, _⟩ := getAvailOf_elim h
  rw [hasKey, hd]
  rfl

theorem isSome_alookup_amod {β : Type} (l : List (String × β)) (k x : String) (f : β → β) :
    (alookup (amod l k f) x).isSome = (alookup l x).isSome := by
  by_cases hx : x = k
  · subst hx
    rw [alookup_amod_self]
    cases alookup l x <;> rfl
  · rw [alookup_amod_ne _ _ hx]

theorem hasKey_connectEffect (t : NetworkTopology) (d1 i1 d2 i2 : String) (x : String) :
    hasKey (connectEffect t d1 i1 d2 i2).devices x = hasKey t.devices x := by
  unfold hasKey
  have hdev : (connectEffect t d1 i1 d2 i2).devices =
      (setSlot (setSlot t d1 i1 (some (d2, i2))) d2 i2 (some (d1, i1))).devices := rfl
  rw [hdev, setSlot_devices, setSlot_devices, isSome_alookup_amod, isSome_alookup_amod]

theorem HostPhaseInv_hostconnect_step (n hps : Nat) {h : Nat} :
    ∀ (s : NetworkTopology) (i : Nat) (s' : NetworkTopology), i ∈ List.range h →
    HostPhaseInv s → ringHostConnectStep n hps s i = .ok s' → HostPhaseInv s' := by
  intro s i s' _ hP hstep
  unfold ringHostConnectStep at hstep
  dsimp only at hstep
  cases hga : getAvailOf s (hostId (i + 1)) with
  | none =>
    rw [hga] at hstep
    dsimp only at hstep
    cases hstep
    exact hP
  | some hi =>
    rw [hga] at hstep
    cases hgb : getAvailOf s (swId (min (i / hps) (n - 1) + 1)) with
    | none =>
      rw [hgb] at hstep
      dsimp only at hstep
      cases hstep
      exact hP
    | some si =>
      rw [hgb] at hstep
      dsimp only at hstep
      by_cases hemp : hi = "" ∨ si = ""
      · rw [if_pos hemp] at hstep
        cases hstep
        exact hP
      · rw [if_neg hemp] at hstep
        obtain ⟨dev1, dev2, hd1, hd2, hi1, hi2, rfl⟩ := connect_devices_ok_elim hstep
        constructor
        · intro j hkey
          rw [hasKey_connectEffect] at hkey
          rw [typeOf_connectEffect]
          exact hP.1 j hkey
        · intro c hc
          rw [typeOf_connectEffect]
          rw [connectEffect_connections] at hc
          have hnew : typeOf s (hostId (i + 1)) = some "host" :=
            hP.1 i (hasKey_of_getAvail hga)
          by_cases hmem : (hostId (i + 1), hi, swId (min (i / hps) (n - 1) + 1), si) ∈
              s.connections
          · rw [if_pos hmem] at hc
            exact hP.2 c hc
          · rw [if_neg hmem] at hc
            rcases List.mem_append.mp hc with hold | hnewm
            · exact hP.2 c hold
            · rcases List.mem_singleton.mp hnewm with rfl
              exact hnew

theorem ringHostPhase_inv (macGen : String → String) (n h : Nat) (t2 : NetworkTopology)
    (hok : ringHostPhase macGen n h = .ok t2) : HostPhaseInv t2 := by
  unfold ringHostPhase at hok
  obtain ⟨t1, hf1, hrest⟩ := exceptBind_ok hok
  obtain ⟨t2', hf2, hrest2⟩ := exceptBind_ok hrest
  have hinit : HostPhaseInv (NetworkTopology.init "Ring Network") := by
    constructor
    · intro j hkey
      simp [hasKey, alookup, NetworkTopology.init] at hkey
    · intro c hc
      simp [NetworkTopology.init] at hc
  have h1 : HostPhaseInv t1 :=
    foldlM_ok_ind HostPhaseInv ringSwitchStep (List.range n) _ t1 hinit
      (fun s a s' ha hs hstep => HostPhaseInv_switch_step s a s' ha hs hstep) hf1
  have h2 : HostPhaseInv t2' :=
    foldlM_ok_ind HostPhaseInv (ringHostAddStep macGen) (List.range h) _ t2' h1
      (fun s a s' ha hs hstep => HostPhaseInv_hostadd_step macGen s a s' ha hs hstep) hf2
  by_cases hn : n = 0
  · rw [if_pos hn] at hrest2
    exact absurd hrest2 (by simp)
  · rw [if_neg hn] at hrest2
    exact foldlM_ok_ind HostPhaseInv (ringHostConnectStep n (max 1 (h / n)))
      (List.range h) _ t2 h2
      (fun s a s' ha hs hstep =>
        HostPhaseInv_hostconnect_step n (max 1 (h / n)) s a s' ha hs hstep) hrest2

/-! ### The ring loop: structure of a successful run -/

theorem ringRingFold_ok_structure (n : Nat) (l : List Nat) :
    ∀ (t2 T : NetworkTopology), l.foldlM (ringRingStep n) t2 = .ok T →
    (∀ x, typeOf T x = typeOf t2 x) ∧
    ∃ recs, T.connections = t2.connections ++ recs ∧ recs.length ≤ l.length ∧
      ∀ c ∈ recs, ∃ i, i ∈ l ∧ c.1 = swId (i + 1) ∧ c.2.2.1 = swId ((i + 1) % n + 1) ∧
        (c.1 = c.2.2.1 → c.2.1 = c.2.2.2) := by
  induction l with
  | nil =>
    intro t2 T hok
    simp only [List.foldlM_nil, pure, Except.pure] at hok
    cases hok
    exact ⟨fun x => rfl, [], by simp, by simp, by simp⟩
  | cons i rest ih =>
    intro t2 T hok
    rw [List.foldlM_cons] at hok
    obtain ⟨s1, hs1, hrest⟩ := exceptBind_ok hok
    have hstep : ringRingStep n t2 i = .ok s1 := hs1
    unfold ringRingStep at hstep
    dsimp only at hstep
    have hnext :
        (∀ x, typeOf s1 x = typeOf t2 x) ∧
        ∃ recs0, s1.connections = t2.connections ++ recs0 ∧ recs0.length ≤ 1 ∧
          ∀ c ∈ recs0, c.1 = swId (i + 1) ∧ c.2.2.1 = swId ((i + 1) % n + 1) ∧
            (c.1 = c.2.2.1 → c.2.1 = c.2.2.2) := by
      cases hga : getAvailOf t2 (swId (i + 1)) with
      | none =>
        rw [hga] at hstep
        dsimp only at hstep
        cases hstep
        exact ⟨fun x => rfl, [], by simp, by simp, by simp⟩
      | some a =>
        rw [hga] at hstep
        cases hgb : getAvailOf t2 (swId ((i + 1) % n + 1)) with
        | none =>
          rw [hgb] at hstep
          dsimp only at hstep
          cases hstep
          exact ⟨fun x => rfl, [], by simp, by simp, by simp⟩
        | some b =>
          rw [hgb] at hstep
          dsimp only at hstep
          by_cases hemp : a = "" ∨ b = ""
          · rw [if_pos hemp] at hstep
            cases hstep
            exact ⟨fun x => rfl, [], by simp, by simp, by simp⟩
          · rw [if_neg hemp] at hstep
            obtain ⟨dev1, dev2, hd1, hd2, hi1, hi2, rfl⟩ := connect_devices_ok_elim hstep
            refine ⟨fun x => typeOf_connectEffect _ _ _ _ _ x, ?_⟩
            rw [connectEffect_connections]
            by_cases hmem : (swId (i + 1), a, swId ((i + 1) % n + 1), b) ∈ t2.connections
            · exact ⟨[], by rw [if_pos hmem]; simp, by simp, by simp⟩
            · refine ⟨[(swId (i + 1), a, swId ((i + 1) % n + 1), b)],
                by rw [if_neg hmem], by simp, ?_⟩
              intro c hc
              rcases List.mem_singleton.mp hc with rfl
              refine ⟨rfl, rfl, ?_⟩
              intro hself
              have hself' : swId (i + 1) = swId ((i + 1) % n + 1) := hself
              show a = b
              rw [← hself'] at hgb
              rw [hga] at hgb
              exact Option.some.inj hgb
    obtain ⟨hty0, recs0, hc0, hl0, hm0⟩ := hnext
    obtain ⟨htyIH, recs', hcIH, hlIH, hmIH⟩ := ih s1 T hrest
    refine ⟨fun x => (htyIH x).trans (hty0 x), recs0 ++ recs', ?_, ?_, ?_⟩
    · rw [hcIH, hc0, List.append_assoc]
    · simp only [List.length_append, List.length_cons]
      omega
    · intro c hc
      rcases List.mem_append.mp hc with hm | hm
      · obtain ⟨h1, h2, h3⟩ := hm0 c hm
        exact ⟨i, List.mem_cons_self _ _, h1, h2, h3⟩
      · obtain ⟨j, hj, h1, h2, h3⟩ := hmIH c hm
        exact ⟨j, List.mem_cons_of_mem _ hj, h1, h2, h3⟩

theorem exceptPure_bind {ε α β : Type} (a : α) (f : α → Except ε β) :
    (pure a >>= f : Except ε β) = f a := rfl

theorem exceptBind_of_ok {ε α β : Type} {e : Except ε α} {a : α} (h : e = .ok a)
    (f : α → Except ε β) : (e >>= f) = f a := by
  subst h
  rfl

theorem exceptBind_of_error {ε α β : Type} {e : Except ε α} {x : ε} (h : e = .error x)
    (f : α → Except ε β) : (e >>= f) = .error x := by
  subst h
  rfl

theorem ringHostAddFold_ok (macGen : String → String) (l : List Nat) :
    l.Nodup → ∀ t1 : NetworkTopology,
    (∀ i ∈ l, hasKey t1.devices (hostId (i + 1)) = false) →
    ∃ t2, l.foldlM (ringHostAddStep macGen) t1 = .ok t2 := by
  induction l with
  | nil =>
    intro _ t1 _
    exact ⟨t1, by simp only [List.foldlM_nil]; rfl⟩
  | cons i rest ih =>
    intro hnd t1 hfresh
    rw [List.nodup_cons] at hnd
    have hstep : ∃ t1', ringHostAddStep macGen t1 i = .ok t1' ∧
        t1'.devices = t1.devices ++
          [(hostId (i + 1),
            Host.mk (hostId (i + 1)) (some ("Host " ++ natToStr (i + 1)))
              (some (.str ("192.168.1." ++ natToStr (100 + (i + 1)))))
              (macGen (hostId (i + 1))))] := by
      refine ⟨{ t1 with devices := t1.devices ++
          [((Host.mk (hostId (i + 1)) (some ("Host " ++ natToStr (i + 1)))
              (some (.str ("192.168.1." ++ natToStr (100 + (i + 1)))))
              (macGen (hostId (i + 1)))).device_id,
            Host.mk (hostId (i + 1)) (some ("Host " ++ natToStr (i + 1)))
              (some (.str ("192.168.1." ++ natToStr (100 + (i + 1)))))
              (macGen (hostId (i + 1))))] }, ?_, ?_⟩
      · unfold ringHostAddStep NetworkTopology.add_device
        rw [Host_mk_device_id, hfresh i (List.mem_cons_self _ _)]
        simp
      · show t1.devices ++ _ = _
        rw [Host_mk_device_id]
    obtain ⟨t1', hstep, hdev⟩ := hstep
    obtain ⟨t2, hfold⟩ := ih hnd.2 t1' (by
      intro j hj
      rw [hdev, hasKey_append, hfresh j (List.mem_cons_of_mem _ hj)]
      have hne : ¬ hostId (i + 1) = hostId (j + 1) := by
        intro he
        have := hostId_inj he
        have hij : i = j := by omega
        exact hnd.1 (hij ▸ hj)
      simp [hasKey, alookup, hne])
    exact ⟨t2, by rw [List.foldlM_cons, exceptBind_of_ok hstep, hfold]⟩

/-! ### Claim C5 (corrected) -/

/-- C5 counterexample: the ring generator at `numSwitches = 2`,
`numHosts = 0` succeeds and produces two switch-to-switch connection
records (the loop wires switch1-switch2 and then switch2-switch1 on a
second pair of ports; nothing suppresses the duplicate pair), not at most
one as claimed. -/
theorem C5_counterexample :
    create_ring_network (fun _ => "") 2 0 = .ok (ringT3 (fun _ => "") 2 0) ∧
    ¬ ssCount (ringT3 (fun _ => "") 2 0) ≤ 1 := by
  constructor
  · decide
  · decide

/-- C5 as amended: for `numSwitches = 0` the generator fails with the
division error; for `numSwitches = 1` it produces at most one
switch-to-switch record, and any such record is a self-loop on switch1
(same device, same interface on both ends); for `numSwitches = 2` it
produces at most two switch-to-switch records (one per ring iteration) —
not at most one, as the two iterations connect the same unordered switch
pair on two different port pairs. -/
theorem C5_ring_degenerate (macGen : String → String) (h : Nat) :
    create_ring_network macGen 0 h = .error .zeroDivision ∧
    (∀ t3, create_ring_network macGen 1 h = .ok t3 →
      ssCount t3 ≤ 1 ∧
      ∀ c ∈ t3.connections, ssRecordB t3 c = true →
        c.1 = "switch1" ∧ c.2.2.1 = "switch1" ∧ c.2.1 = c.2.2.2) ∧
    (∀ t3, create_ring_network macGen 2 h = .ok t3 → ssCount t3 ≤ 2) := by
  have hhost : ∀ n t2, ringHostPhase macGen n h = .ok t2 →
      ∀ (t3 : NetworkTopology), (∀ x, typeOf t3 x = typeOf t2 x) →
      ∀ c ∈ t2.connections, ¬ ssRecordB t3 c = true := by
    intro n t2 hphase t3 hty c hc
    have hrec := (ringHostPhase_inv macGen n h t2 hphase).2 c hc
    simp only [ssRecordB, isSwitchIn, hty, hrec, Bool.and_eq_true, decide_eq_true_eq]
    rintro ⟨h1, _⟩
    exact absurd (Option.some.inj h1) (by decide)
  refine ⟨?_, ?_, ?_⟩
  · have hps : ringHostPhase macGen 0 h = .error .zeroDivision := by
      obtain ⟨t2', hf2⟩ := ringHostAddFold_ok macGen (List.range h) (List.nodup_range h)
        (NetworkTopology.init "Ring Network") (fun i _ => by rfl)
      unfold ringHostPhase
      dsimp only
      rw [List.range_zero, List.foldlM_nil, exceptPure_bind, exceptBind_of_ok hf2,
        if_pos rfl]
    unfold create_ring_network
    rw [exceptBind_of_error hps]
  · intro t3 hok
    unfold create_ring_network at hok
    obtain ⟨t2, hphase, hfold⟩ := exceptBind_ok hok
    obtain ⟨hty, recs, hconn, hlen, hmem⟩ := ringRingFold_ok_structure 1 (List.range 1) t2 t3 hfold
    have hold : t2.connections.filter (ssRecordB t3) = [] :=
      List.filter_eq_nil_iff.mpr (hhost 1 t2 hphase t3 hty)
    constructor
    · rw [ssCount, hconn, List.filter_append, List.length_append, hold]
      have := List.length_filter_le (ssRecordB t3) recs
      simp only [List.length_range] at hlen
      simp only [List.length_nil]
      omega
    · intro c hc hss
      rw [hconn] at hc
      rcases List.mem_append.mp hc with hcold | hcnew
      · exact absurd hss (hhost 1 t2 hphase t3 hty c hcold)
      · obtain ⟨i, hi, h1, h2, h3⟩ := hmem c hcnew
        have hi0 : i = 0 := by
          have := List.mem_range.mp hi
          omega
        subst hi0
        norm_num at h1 h2
        have hsw1 : swId 1 = "switch1" := by decide
        rw [hsw1] at h1 h2
        exact ⟨h1, h2, h3 (h1.trans h2.symm)⟩
  · intro t3 hok
    unfold create_ring_network at hok
    obtain ⟨t2, hphase, hfold⟩ := exceptBind_ok hok
    obtain ⟨hty, recs, hconn, hlen, hmem⟩ := ringRingFold_ok_structure 2 (List.range 2) t2 t3 hfold
    have hold : t2.connections.filter (ssRecordB t3) = [] :=
      List.filter_eq_nil_iff.mpr (hhost 2 t2 hphase t3 hty)
    rw [ssCount, hconn, List.filter_append, List.length_append, hold]
    have := List.length_filter_le (ssRecordB t3) recs
    simp only [List.length_range] at hlen
    simp only [List.length_nil]
    omega

/-- C5 witness: at `numHosts = 0`, the `numSwitches = 0` call fails with
the division error and the `numSwitches = 1` ring holds at most one
switch-to-switch record. -/
theorem C5_ring_degenerate_witness :
    create_ring_network (fun _ => "") 0 0 = .error .zeroDivision ∧
    ssCount (ringT3 (fun _ => "") 1 0) ≤ 1 :=
  ⟨(C5_ring_degenerate (fun _ => "") 0).1,
   ((C5_ring_degenerate (fun _ => "") 0).2.1 (ringT3 (fun _ => "") 1 0) (by decide)).1⟩

/-! ### Serializer round trip: device-phase lemmas -/

theorem foldl_set_property_properties (l : List (String × Value)) (d : NetworkDevice) :
    (l.foldl (fun d' q => d'.set_property q.1 q.2) d).properties =
      l.foldl (fun P q => aset P q.1 q.2) d.properties := by
  induction l generalizing d with
  | nil => rfl
  | cons x rest ih => rw [List.foldl_cons, List.foldl_cons, ih]; rfl

theorem alookup_foldl_aset (props : List (String × Value)) :
    ∀ (init : List (String × Value)) (k : String), (props.map Prod.fst).Nodup →
    alookup (props.foldl (fun P q => aset P q.1 q.2) init) k =
      match alookup props k with
      | some v => some v
      | none => alookup init k := by
  induction props with
  | nil => intro init k _; rfl
  | cons q rest ih =>
    intro init k hnd
    obtain ⟨a, v⟩ := q
    simp only [List.map_cons, List.nodup_cons] at hnd
    rw [List.foldl_cons]
    rw [ih _ k hnd.2]
    rw [alookup_cons]
    by_cases hak : a = k
    · subst hak
      have hrest : alookup rest a = none := by
        cases hr : alookup rest a with
        | none => rfl
        | some w =>
          exact absurd (List.mem_map.mpr ⟨(a, w), alookup_eq_some_mem hr, rfl⟩) hnd.1
      rw [hrest, if_pos rfl]
      exact alookup_aset_self _ _ _
    · rw [if_neg hak]
      cases hr : alookup rest k with
      | none => exact alookup_aset_ne _ _ (fun he => hak he.symm)
      | some w => rfl

theorem map_fst_mkpairs (l : List String) :
    (l.map (fun s => (s, (none : Option Peer)))).map (fun p => p.1) = l := by
  induction l with
  | nil => rfl
  | cons x rest ih =>
    simp only [List.map_cons]
    rw [ih]


theorem Switch_mk_properties (id : String) (nm : Option String) (np : Nat) (st : Value) :
    (Switch.mk id nm np st).properties =
      if st = .str "l3" then
        [("switch_type", st), ("vlans", defaultVlans (mkPorts np)),
         ("routing_table", .map .nil), ("ip_interfaces", .map .nil)]
      else [("switch_type", st), ("vlans", defaultVlans (mkPorts np))] := by
  unfold Switch.mk
  have hp : ((mkPorts np).foldl NetworkDevice.add_interface
      (NetworkDevice.init id "switch" nm)).properties = [] :=
    foldl_add_interface_properties _ _
  have hi : ((mkPorts np).foldl NetworkDevice.add_interface
      (NetworkDevice.init id "switch" nm)).interfaces = (mkPorts np).map (fun s => (s, none)) := by
    rw [foldl_add_interface_fresh _ _ (mkPorts_nodup np) (fun x _ => by rfl)]
    rfl
  have hkeys : (((mkPorts np).foldl NetworkDevice.add_interface
      (NetworkDevice.init id "switch" nm)).interfaces.map (fun p => p.1)) = mkPorts np := by
    rw [hi]
    exact map_fst_mkpairs _
  split
  · simp only [set_property_interfaces, set_property_properties, hkeys, hp]
    rfl
  · simp only [set_property_interfaces, set_property_properties, hkeys, hp]
    rfl

theorem Host_mk_properties (id : String) (nm : Option String) (ip : Option Value) (mac : String) :
    (Host.mk id nm ip mac).properties =
      match ip with
      | some v => if v.truthy then [("ip_address", v), ("mac_address", .str mac)] else []
      | none => [] := by
  unfold Host.mk
  cases ip with
  | none => rfl
  | some v =>
    by_cases ht : v.truthy = true
    · simp only [optTruthy, ht, if_true]
      rfl
    · rw [Bool.not_eq_true] at ht
      simp only [optTruthy, ht, Bool.false_eq_true, if_false]
      rfl

theorem map_keys_pairs {β : Type} (l : List (String × β)) :
    (l.map (fun q => q.1)).map (fun s => (s, (none : Option Peer))) =
      l.map (fun q => (q.1, none)) := by
  induction l with
  | nil => rfl
  | cons x rest ih =>
    simp only [List.map_cons]
    rw [ih]

theorem map_keys_singleton {β : Type} {l : List (String × β)} {k : String}
    (h : l.map (fun q => q.1) = [k]) : l.map (fun q => (q.1, (none : Option Peer))) = [(k, none)] := by
  cases l with
  | nil => simp at h
  | cons x rest =>
    simp only [List.map_cons, List.cons.injEq] at h
    cases rest with
    | nil => simp [h.1]
    | cons y r2 => simp at h

theorem load_device_step_switch (macGen : String → String) (acc : NetworkTopology)
    (id : String) (d : NetworkDevice) (hid : d.device_id = id)
    (hpNd : (d.properties.map Prod.fst).Nodup)
    (hty : d.device_type = "switch")
    (hkeys : intfKeysOf d = mkPorts d.interfaces.length)
    (hst : alookup d.properties "switch_type" = some (.str "l2") ∨
      alookup d.properties "switch_type" = some (.str "l3"))
    (hvl : hasKey d.properties "vlans" = true)
    (hl3 : alookup d.properties "switch_type" = some (.str "l3") →
      hasKey d.properties "routing_table" = true ∧ hasKey d.properties "ip_interfaces" = true)
    (hfree : hasKey acc.devices id = false) :
    ∃ ldev, load_device_step macGen acc (id, d.to_dict) =
      .ok { acc with devices := acc.devices ++ [(id, ldev)] } ∧ DevRel d ldev := by
  have hdocty : (id, d.to_dict).2.type = "switch" := hty
  refine ⟨d.properties.foldl (fun d' q => d'.set_property q.1 q.2)
    (Switch.mk id (some d.name) (d.to_dict.interfaces.length)
      ((alookup d.properties "switch_type").getD (.str "l2"))), ?_, ?_, ?_, ?_, ?_⟩
  · unfold load_device_step
    dsimp only
    rw [if_pos hdocty]
    show acc.add_device _ = _
    unfold NetworkTopology.add_device
    rw [foldl_set_property_device_id, Switch_mk_device_id, hfree]
    simp only [Bool.false_eq_true, if_false]
    rfl
  · rw [foldl_set_property_device_id, Switch_mk_device_id, hid]
  · rw [foldl_set_property_device_type, Switch_mk_device_type, hty]
  · rw [foldl_set_property_interfaces, Switch_mk_interfaces]
    have hlen : d.to_dict.interfaces.length = d.interfaces.length := List.length_map _ _
    rw [hlen, ← hkeys]
    exact map_keys_pairs d.interfaces
  · intro k
    rw [foldl_set_property_properties, alookup_foldl_aset _ _ _ hpNd]
    cases hdk : alookup d.properties k with
    | some v => rfl
    | none =>
      rw [Switch_mk_properties]
      have hk_st : ¬ "switch_type" = k := by
        intro he
        rcases hst with h | h <;> rw [he] at h <;> rw [hdk] at h <;> simp at h
      have hk_vl : ¬ "vlans" = k := by
        intro he
        rw [hasKey, he, hdk] at hvl
        simp at hvl
      rcases hst with hstv | hstv
      · rw [hstv, Option.getD_some,
          if_neg (by decide : ¬ ((Value.str "l2") = Value.str "l3"))]
        rw [alookup_cons, if_neg hk_st, alookup_cons, if_neg hk_vl]
        rfl
      · obtain ⟨hrt, hip⟩ := hl3 hstv
        have hk_rt : ¬ "routing_table" = k := by
          intro he
          rw [hasKey, he, hdk] at hrt
          simp at hrt
        have hk_ip : ¬ "ip_interfaces" = k := by
          intro he
          rw [hasKey, he, hdk] at hip
          simp at hip
        rw [hstv, Option.getD_some, if_pos rfl]
        rw [alookup_cons, if_neg hk_st, alookup_cons, if_neg hk_vl,
          alookup_cons, if_neg hk_rt, alookup_cons, if_neg hk_ip]
        rfl

theorem load_device_step_host (macGen : String → String) (acc : NetworkTopology)
    (id : String) (d : NetworkDevice) (hid : d.device_id = id)
    (hpNd : (d.properties.map Prod.fst).Nodup)
    (hty : d.device_type = "host")
    (hkeys : intfKeysOf d = ["eth0"])
    (hmac : optTruthy (alookup d.properties "ip_address") = true →
      hasKey d.properties "mac_address" = true)
    (hfree : hasKey acc.devices id = false) :
    ∃ ldev, load_device_step macGen acc (id, d.to_dict) =
      .ok { acc with devices := acc.devices ++ [(id, ldev)] } ∧ DevRel d ldev := by
  have hdocty : (id, d.to_dict).2.type = "host" := hty
  have hnotsw : ¬ (id, d.to_dict).2.type = "switch" := by
    rw [hdocty]
    decide
  refine ⟨d.properties.foldl (fun d' q => d'.set_property q.1 q.2)
    (Host.mk id (some d.name) (alookup d.to_dict.properties "ip_address") (macGen id)),
    ?_, ?_, ?_, ?_, ?_⟩
  · unfold load_device_step
    dsimp only
    rw [if_neg hnotsw, if_pos hdocty]
    show acc.add_device _ = _
    unfold NetworkTopology.add_device
    rw [foldl_set_property_device_id, Host_mk_device_id, hfree]
    simp only [Bool.false_eq_true, if_false]
    rfl
  · rw [foldl_set_property_device_id, Host_mk_device_id, hid]
  · rw [foldl_set_property_device_type, Host_mk_device_type, hty]
  · rw [foldl_set_property_interfaces, Host_mk_interfaces]
    exact (map_keys_singleton hkeys).symm
  · intro k
    rw [foldl_set_property_properties, alookup_foldl_aset _ _ _ hpNd]
    cases hdk : alookup d.properties k with
    | some v => rfl
    | none =>
      rw [Host_mk_properties]
      have hdoc : alookup d.to_dict.properties "ip_address" =
          alookup d.properties "ip_address" := rfl
      cases hip : alookup d.properties "ip_address" with
      | none =>
        rw [hdoc, hip]
        rfl
      | some v =>
        rw [hdoc, hip]
        dsimp only
        by_cases htr : v.truthy = true
        · rw [if_pos htr]
          have hk_ip : ¬ "ip_address" = k := by
            intro he
            rw [he] at hip
            rw [hdk] at hip
            simp at hip
          have hmk : hasKey d.properties "mac_address" = true := by
            apply hmac
            rw [hip]
            exact htr
          have hk_mac : ¬ "mac_address" = k := by
            intro he
            rw [hasKey, he, hdk] at hmk
            simp at hmk
          rw [alookup_cons, if_neg hk_ip, alookup_cons, if_neg hk_mac]
          rfl
        · rw [Bool.not_eq_true] at htr
          rw [htr]
          simp only [Bool.false_eq_true, if_false]
          rfl

theorem load_devices_aux (macGen : String → String) :
    ∀ (devs : List (String × NetworkDevice)) (acc : NetworkTopology),
    (∀ p ∈ devs, DevWF p.1 p.2) →
    (∀ p ∈ devs, hasKey acc.devices p.1 = false) →
    (devs.map Prod.fst).Nodup →
    ∃ upd, (devs.map (fun p => (p.1, p.2.to_dict))).foldlM (load_device_step macGen) acc =
      .ok { acc with devices := acc.devices ++ upd } ∧
      List.Forall₂ (fun p q => p.1 = q.1 ∧ DevRel p.2 q.2) devs upd := by
  intro devs
  induction devs with
  | nil =>
    intro acc _ _ _
    refine ⟨[], ?_, List.Forall₂.nil⟩
    simp only [List.map_nil, List.foldlM_nil, List.append_nil]
    rfl
  | cons p rest ih =>
    intro acc hWF hfresh hnd
    obtain ⟨id, d⟩ := p
    obtain ⟨hid, hiNd, hpNd, hkind⟩ := hWF _ (List.mem_cons_self _ _)
    simp only [List.map_cons, List.nodup_cons] at hnd
    have hstep : ∃ ldev, load_device_step macGen acc (id, d.to_dict) =
        .ok { acc with devices := acc.devices ++ [(id, ldev)] } ∧ DevRel d ldev := by
      rcases hkind with ⟨hty, hkeys, hst, hvl, hl3⟩ | ⟨hty, hkeys, hmac⟩
      · exact load_device_step_switch macGen acc id d hid hpNd hty hkeys hst hvl hl3
          (hfresh _ (List.mem_cons_self _ _))
      · exact load_device_step_host macGen acc id d hid hpNd hty hkeys hmac
          (hfresh _ (List.mem_cons_self _ _))
    obtain ⟨ldev, hstep, hrel⟩ := hstep
    obtain ⟨upd, hfold, hF2⟩ := ih { acc with devices := acc.devices ++ [(id, ldev)] }
      (fun q hq => hWF q (List.mem_cons_of_mem _ hq))
      (by
        intro q hq
        show hasKey (acc.devices ++ [(id, ldev)]) q.1 = false
        rw [hasKey_append, hfresh q (List.mem_cons_of_mem _ hq)]
        have hne : ¬ id = q.1 := by
          intro he
          exact hnd.1 (he ▸ List.mem_map.mpr ⟨q, hq, rfl⟩)
        simp [hasKey, alookup, hne])
      hnd.2
    refine ⟨(id, ldev) :: upd, ?_, List.Forall₂.cons ⟨rfl, hrel⟩ hF2⟩
    rw [List.map_cons, List.foldlM_cons, exceptBind_of_ok hstep, hfold]
    rw [List.append_assoc]
    rfl

theorem forall₂_map_fst {l : List (String × NetworkDevice)} {l' : List (String × NetworkDevice)}
    (h : List.Forall₂ (fun p q => p.1 = q.1 ∧ DevRel p.2 q.2) l l') :
    l'.map Prod.fst = l.map Prod.fst := by
  induction h with
  | nil => rfl
  | cons hpq _ ih =>
    simp only [List.map_cons, ih, hpq.1]

theorem forall₂_alookup {l l' : List (String × NetworkDevice)}
    (h : List.Forall₂ (fun p q => p.1 = q.1 ∧ DevRel p.2 q.2) l l') (x : String) :
    (alookup l x = none ∧ alookup l' x = none) ∨
    (∃ v w, alookup l x = some v ∧ alookup l' x = some w ∧ DevRel v w) := by
  induction h with
  | nil => exact Or.inl ⟨rfl, rfl⟩
  | cons hpq hrest ih =>
    rename_i p q l₀ l₀'
    obtain ⟨a, v⟩ := p
    obtain ⟨a', w⟩ := q
    obtain ⟨ha, hrel⟩ := hpq
    cases ha
    by_cases hax : a = x
    · exact Or.inr ⟨v, w, by rw [alookup_cons, if_pos hax], by rw [alookup_cons, if_pos hax],
        hrel⟩
    · rw [alookup_cons, alookup_cons, if_neg hax, if_neg hax]
      exact ih

theorem alookup_map_pairs {β γ : Type} (l : List (String × β)) (c : γ) (i : String) :
    alookup (l.map (fun q => (q.1, c))) i = (alookup l i).map (fun _ => c) := by
  induction l with
  | nil => rfl
  | cons x rest ih =>
    obtain ⟨a, b⟩ := x
    simp only [List.map_cons]
    rw [alookup_cons, alookup_cons]
    by_cases hai : a = i
    · rw [if_pos hai, if_pos hai]
      rfl
    · rw [if_neg hai, if_neg hai]
      exact ih

theorem load_devices_roundtrip (t : NetworkTopology) (macGen : String → String)
    (hWF : TopoWF t) :
    ∃ t1, load_devices t.to_dict macGen = .ok t1 ∧
      deviceIds t1 = deviceIds t ∧
      (∀ x, typeOf t1 x = typeOf t x) ∧
      (∀ x k, propOf t1 x k = propOf t x k) ∧
      (∀ id i, slotOf t1 id i = (slotOf t id i).map (fun _ => none)) ∧
      t1.connections = [] := by
  obtain ⟨hnd, hdev, _⟩ := hWF
  obtain ⟨upd, hfold, hF2⟩ := load_devices_aux macGen t.devices
    (NetworkTopology.init t.to_dict.name) hdev (fun q _ => by rfl) hnd
  refine ⟨{ NetworkTopology.init t.to_dict.name with
      devices := (NetworkTopology.init t.to_dict.name).devices ++ upd }, ?_, ?_, ?_, ?_, ?_, ?_⟩
  · show (t.to_dict).devices.foldlM (load_device_step macGen)
      (NetworkTopology.init t.to_dict.name) = _
    rw [show (t.to_dict).devices = t.devices.map (fun p => (p.1, p.2.to_dict)) from rfl]
    exact hfold
  · show List.map Prod.fst ((NetworkTopology.init t.to_dict.name).devices ++ upd) = _
    rw [show (NetworkTopology.init t.to_dict.name).devices = [] from rfl, List.nil_append]
    exact forall₂_map_fst hF2
  · intro x
    show (alookup ((NetworkTopology.init t.to_dict.name).devices ++ upd) x).map
      (fun d => d.device_type) = _
    rw [show (NetworkTopology.init t.to_dict.name).devices = [] from rfl, List.nil_append]
    rcases forall₂_alookup hF2 x with ⟨h1, h2⟩ | ⟨v, w, h1, h2, hrel⟩
    · rw [h2]
      unfold typeOf
      rw [h1]
    · rw [h2]
      unfold typeOf
      rw [h1]
      show some w.device_type = some v.device_type
      rw [hrel.2.1]
  · intro x k
    show propOf { NetworkTopology.init t.to_dict.name with
      devices := (NetworkTopology.init t.to_dict.name).devices ++ upd } x k = _
    unfold propOf
    rw [show (NetworkTopology.init t.to_dict.name).devices = [] from rfl, List.nil_append]
    rcases forall₂_alookup hF2 x with ⟨h1, h2⟩ | ⟨v, w, h1, h2, hrel⟩
    · rw [h2, h1]
    · rw [h2, h1]
      exact hrel.2.2.2 k
  · intro id i
    show slotOf { NetworkTopology.init t.to_dict.name with
      devices := (NetworkTopology.init t.to_dict.name).devices ++ upd } id i = _
    unfold slotOf
    rw [show (NetworkTopology.init t.to_dict.name).devices = [] from rfl, List.nil_append]
    rcases forall₂_alookup hF2 id with ⟨h1, h2⟩ | ⟨v, w, h1, h2, hrel⟩
    · rw [h2, h1]
      rfl
    · rw [h2, h1]
      dsimp only
      rw [hrel.2.2.1]
      exact alookup_map_pairs v.interfaces none i
  · rfl

/-! ### Serializer round trip: connection-replay lemmas -/

theorem endCount_one_of_slot {t : NetworkTopology}
    (hWF4 : ∀ p ∈ t.devices, ∀ q ∈ p.2.interfaces, q.2.isSome = true → endCount t p.1 q.1 = 1)
    {a ia : String} {pe : Peer} (hslot : slotOf t a ia = some (some pe)) :
    endCount t a ia = 1 := by
  obtain ⟨dev, hd, hi⟩ := slotOf_elim hslot
  exact hWF4 (a, dev) (alookup_eq_some_mem hd) (ia, some pe) (alookup_eq_some_mem hi) rfl

theorem not_touched_of_endCount_one {t : NetworkTopology}
    {processed rest : List (String × String × String × String)}
    {c : String × String × String × String} {id i : String}
    (hsplit : t.connections = processed ++ c :: rest)
    (hone : endCount t id i = 1) (hmatch : endMatchB id i c = true) :
    ¬ touched processed id i := by
  rintro ⟨c', hc', hm'⟩
  have h1 : 0 < (processed.filter (endMatchB id i)).length :=
    List.length_pos_of_mem (List.mem_filter.mpr ⟨hc', hm'⟩)
  rw [endCount, hsplit, List.filter_append, List.filter_cons, hmatch] at hone
  simp only [if_true, List.length_append, List.length_cons] at hone
  omega

theorem endMatchB_elim {id i a ia b ib : String}
    (h : endMatchB id i (a, ia, b, ib) = true) :
    (id = a ∧ i = ia) ∨ (id = b ∧ i = ib) := by
  simp only [endMatchB, Bool.or_eq_true, Bool.and_eq_true, decide_eq_true_eq] at h
  rcases h with ⟨h1, h2⟩ | ⟨h1, h2⟩
  · exact Or.inl ⟨h1.symm, h2.symm⟩
  · exact Or.inr ⟨h1.symm, h2.symm⟩

theorem touched_append_self {processed : List (String × String × String × String)}
    {c : String × String × String × String} {id i : String}
    (hmatch : endMatchB id i c = true) : touched (processed ++ [c]) id i :=
  ⟨c, List.mem_append.mpr (Or.inr (List.mem_singleton.mpr rfl)), hmatch⟩

theorem replay_fold (t : NetworkTopology)
    (hWF3 : ∀ c ∈ t.connections,
      slotOf t c.1 c.2.1 = some (some (c.2.2.1, c.2.2.2)) ∧
      slotOf t c.2.2.1 c.2.2.2 = some (some (c.1, c.2.1)))
    (hWF4 : ∀ p ∈ t.devices, ∀ q ∈ p.2.interfaces, q.2.isSome = true →
      endCount t p.1 q.1 = 1) :
    ∀ (remaining processed : List (String × String × String × String))
      (cur : NetworkTopology),
    t.connections = processed ++ remaining →
    deviceIds cur = deviceIds t →
    (∀ x, typeOf cur x = typeOf t x) →
    (∀ x k, propOf cur x k = propOf t x k) →
    (∀ id i, slotOf cur id i = (slotOf t id i).map
      (fun s => if touched processed id i then s else none)) →
    cur.connections = processed →
    ∃ T, remaining.foldlM
        (fun acc c => acc.connect_devices c.1 c.2.1 c.2.2.1 c.2.2.2) cur = .ok T ∧
      deviceIds T = deviceIds t ∧ (∀ x, typeOf T x = typeOf t x) ∧
      (∀ x k, propOf T x k = propOf t x k) ∧ T.connections = t.connections := by
  intro remaining
  induction remaining with
  | nil =>
    intro processed cur hsplit hids hty hpr _ hconn
    refine ⟨cur, by simp only [List.foldlM_nil]; rfl, hids, hty, hpr, ?_⟩
    rw [hconn, hsplit, List.append_nil]
  | cons c rest ih =>
    intro processed cur hsplit hids hty hpr hslot hconn
    obtain ⟨a, ia, b, ib⟩ := c
    have hcmem : (a, ia, b, ib) ∈ t.connections := by
      rw [hsplit]
      exact List.mem_append.mpr (Or.inr (List.mem_cons_self _ _))
    obtain ⟨hsa, hsb⟩ := hWF3 _ hcmem
    have hma : endMatchB a ia (a, ia, b, ib) = true := by simp [endMatchB]
    have hmb : endMatchB b ib (a, ia, b, ib) = true := by simp [endMatchB]
    have hcount_a : endCount t a ia = 1 := endCount_one_of_slot hWF4 hsa
    have hcount_b : endCount t b ib = 1 := endCount_one_of_slot hWF4 hsb
    have htouch_a : ¬ touched processed a ia :=
      not_touched_of_endCount_one hsplit hcount_a hma
    have htouch_b : ¬ touched processed b ib :=
      not_touched_of_endCount_one hsplit hcount_b hmb
    have hcur_a : slotOf cur a ia = some none := by
      rw [hslot a ia, hsa, Option.map_some']
      rw [if_neg htouch_a]
    have hcur_b : slotOf cur b ib = some none := by
      rw [hslot b ib, hsb, Option.map_some']
      rw [if_neg htouch_b]
    obtain ⟨devA, hdA, hiA⟩ := slotOf_elim hcur_a
    obtain ⟨devB, hdB, hiB⟩ := slotOf_elim hcur_b
    have hok := connect_devices_ok_intro a ia b ib hdA hdB hiA hiB
    have hnotmemproc : (a, ia, b, ib) ∉ processed := fun hmem => htouch_a ⟨_, hmem, hma⟩
    have hnotmemcur : (a, ia, b, ib) ∉ cur.connections := by
      rw [hconn]
      exact hnotmemproc
    have hconn' : (connectEffect cur a ia b ib).connections = processed ++ [(a, ia, b, ib)] := by
      rw [connectEffect_connections, if_neg hnotmemcur, hconn]
    have hslot' : ∀ id i, slotOf (connectEffect cur a ia b ib) id i =
        (slotOf t id i).map
          (fun s => if touched (processed ++ [(a, ia, b, ib)]) id i then s else none) := by
      intro id i
      by_cases h_a : id = a ∧ i = ia
      · obtain ⟨rfl, rfl⟩ := h_a
        rw [slotOf_connectEffect_d1 cur i b ib (by rw [hdA]; rfl), hsa, Option.map_some']
        rw [if_pos (touched_append_self hma)]
      · by_cases h_b : id = b ∧ i = ib
        · obtain ⟨rfl, rfl⟩ := h_b
          rw [slotOf_connectEffect_d2 cur a ia i (by rw [hdB]; rfl), hsb, Option.map_some']
          rw [if_pos (touched_append_self hmb)]
        · rw [slotOf_connectEffect_other cur a ia b ib h_a h_b, hslot id i]
          have hiff : touched processed id i ↔ touched (processed ++ [(a, ia, b, ib)]) id i := by
            constructor
            · rintro ⟨c', hc', hm'⟩
              exact ⟨c', List.mem_append.mpr (Or.inl hc'), hm'⟩
            · rintro ⟨c', hc', hm'⟩
              rcases List.mem_append.mp hc' with h | h
              · exact ⟨c', h, hm'⟩
              · rw [List.mem_singleton.mp h] at hm'
                rcases endMatchB_elim hm' with h1 | h1
                · exact absurd h1 h_a
                · exact absurd h1 h_b
          cases slotOf t id i with
          | none => rfl
          | some s =>
            rw [Option.map_some', Option.map_some']
            rw [if_congr hiff rfl rfl]
    obtain ⟨T, hfoldT, hidsT, htyT, hprT, hconnT⟩ := ih (processed ++ [(a, ia, b, ib)])
      (connectEffect cur a ia b ib)
      (by rw [hsplit, List.append_assoc]; rfl)
      (by rw [deviceIds_connectEffect]; exact hids)
      (fun x => by rw [typeOf_connectEffect]; exact hty x)
      (fun x k => by rw [propOf_connectEffect]; exact hpr x k)
      hslot' hconn'
    refine ⟨T, ?_, hidsT, htyT, hprT, hconnT⟩
    rw [List.foldlM_cons]
    have hok' : (fun (acc : NetworkTopology) (c : String × String × String × String) =>
        acc.connect_devices c.1 c.2.1 c.2.2.1 c.2.2.2) cur (a, ia, b, ib) =
        .ok (connectEffect cur a ia b ib) := hok
    rw [exceptBind_of_ok hok', hfoldT]

/-- C3: for every topology satisfying the module invariants (`TopoWF`:
unique device ids, per-device well-formedness, every connection record
matched by both endpoint slots, and every occupied slot covered by exactly
one record), loading the document produced by `to_dict` succeeds and
yields a topology with the same device-id list, the same device types,
the same property values, and the identical connection list. -/
theorem C3_load_to_dict_roundtrip (t : NetworkTopology) (macGen : String → String)
    (hWF : TopoWF t) :
    ∃ T, NetworkTopology.load_from_file t.to_dict macGen = .ok T ∧
      deviceIds T = deviceIds t ∧
      (∀ x, typeOf T x = typeOf t x) ∧
      (∀ x k, propOf T x k = propOf t x k) ∧
      T.connections = t.connections := by
  obtain ⟨hnd, hdev, hWF3, hWF4⟩ := hWF
  obtain ⟨t1, h1, hids1, hty1, hpr1, hslot1, hconn1⟩ :=
    load_devices_roundtrip t macGen ⟨hnd, hdev, hWF3, hWF4⟩
  have hslot1' : ∀ id i, slotOf t1 id i = (slotOf t id i).map
      (fun s => if touched [] id i then s else none) := by
    intro id i
    rw [hslot1 id i]
    cases slotOf t id i with
    | none => rfl
    | some s =>
      rw [Option.map_some', Option.map_some']
      rw [if_neg (by rintro ⟨c, hc, _⟩; exact absurd hc (List.not_mem_nil c))]
  obtain ⟨T, hfold, hidsT, htyT, hprT, hconnT⟩ := replay_fold t hWF3 hWF4
    t.to_dict.connections [] t1 (List.nil_append t.connections).symm
    hids1 hty1 hpr1 hslot1' hconn1
  refine ⟨T, ?_, hidsT, htyT, hprT, hconnT⟩
  show (load_devices t.to_dict macGen >>= fun t2 => t.to_dict.connections.foldlM
    (fun acc c => acc.connect_devices c.1 c.2.1 c.2.2.1 c.2.2.2) t2) = .ok T
  rw [exceptBind_of_ok h1, hfold]

theorem C3_load_to_dict_roundtrip_witness :
    TopoWF wfDemo ∧
    ∃ T, NetworkTopology.load_from_file wfDemo.to_dict (fun _ => "") = .ok T ∧
      deviceIds T = deviceIds wfDemo ∧
      (∀ x, typeOf T x = typeOf wfDemo x) ∧
      (∀ x k, propOf T x k = propOf wfDemo x k) ∧
      T.connections = wfDemo.connections :=
  ⟨by decide, C3_load_to_dict_roundtrip wfDemo (fun _ => "") (by decide)⟩

/-! ### Claim C6: exact ring counts when no switch runs out of ports -/

/-- The switch device created by ring-generator iteration `i`. -/
def ringSwitchDev (i : Nat) : NetworkDevice :=
  Switch.mk (swId (i + 1)) (some ("Switch " ++ natToStr (i + 1))) 24 (.str "l2")

/-- How many of the first `k` ring iterations touch switch index `j`
(0-based; iteration `i` touches indices `i` and `(i + 1) % n`), in closed
form.  Meaningful for `k ≤ n` and `j < n`. -/
def ringD (n k j : Nat) : Nat :=
  (if j < k then 1 else 0) + (if 1 ≤ j ∧ j ≤ k then 1 else 0) +
    (if j = 0 ∧ k = n then 1 else 0)

/-- A switch id registered with the `Switch.__init__` port complement,
switch type, and only host peers in its slots: the state of every ring
switch right after the host-attachment phase. -/
def SwShape (t : NetworkTopology) (id : String) : Prop :=
  ∃ dev, alookup t.devices id = some dev ∧ dev.device_type = "switch" ∧
    intfKeysOf dev = mkPorts 24 ∧
    ∀ q ∈ dev.interfaces, ∀ pe : Peer, q.2 = some pe → ∃ m, pe.1 = hostId (m + 1)

/-- Invariant of the ring loop after `k` of `n` iterations, relative to
the host-phase state `t2`: device types unchanged, exactly one
switch-to-switch record per completed iteration appended to the
connection set, and per-switch slot accounting (switch-peer slots gained
and free ports lost both equal the number of touching iterations). -/
def RingState (n k : Nat) (t2 s : NetworkTopology) : Prop :=
  (∀ x, typeOf s x = typeOf t2 x) ∧
  (∃ recs, s.connections = t2.connections ++ recs ∧ recs.length = k ∧
    ∀ c ∈ recs, ∃ i, i < k ∧ c.1 = swId (i + 1) ∧ c.2.2.1 = swId ((i + 1) % n + 1)) ∧
  (∀ j, j < n → ∃ dev, alookup s.devices (swId (j + 1)) = some dev ∧
    intfKeysOf dev = mkPorts 24 ∧
    (dev.interfaces.filter (peerSwitchB (isSwitchIn t2) (swId (j + 1)))).length =
      ringD n k j ∧
    freeOf dev = freeAt t2 (swId (j + 1)) - ringD n k j)

theorem mod_succ_eq {n : Nat} (k : Nat) (hk : k < n) :
    (k + 1) % n = if k + 1 = n then 0 else k + 1 := by
  by_cases h : k + 1 = n
  · rw [if_pos h, h, Nat.mod_self]
  · rw [if_neg h, Nat.mod_eq_of_lt (by omega)]

theorem ringD_zero {n : Nat} (j : Nat) (hn : 1 ≤ n) (hj : j < n) : ringD n 0 j = 0 := by
  unfold ringD
  split_ifs <;> omega

theorem ringD_step {n : Nat} (k j : Nat) (hn : 3 ≤ n) (hk : k < n) (hj : j < n) :
    ringD n (k + 1) j = ringD n k j + (if j = k ∨ j = (k + 1) % n then 1 else 0) := by
  have hm := mod_succ_eq k hk
  unfold ringD
  by_cases h : k + 1 = n
  · rw [if_pos h] at hm
    rw [hm]
    split_ifs <;> omega
  · rw [if_neg h] at hm
    rw [hm]
    split_ifs <;> omega

theorem ringD_final {n : Nat} (j : Nat) (hn : 3 ≤ n) (hj : j < n) : ringD n n j = 2 := by
  unfold ringD
  split_ifs <;> omega

theorem ringD_left_le_one {n : Nat} (k : Nat) (hn : 3 ≤ n) (hk : k < n) :
    ringD n k k ≤ 1 := by
  unfold ringD
  split_ifs <;> omega

theorem ringD_right_le_one {n : Nat} (k : Nat) (hn : 3 ≤ n) (hk : k < n) :
    ringD n k ((k + 1) % n) ≤ 1 := by
  have hm := mod_succ_eq k hk
  unfold ringD
  by_cases h : k + 1 = n
  · rw [if_pos h] at hm
    rw [hm]
    split_ifs <;> omega
  · rw [if_neg h] at hm
    rw [hm]
    split_ifs <;> omega

theorem ring_endpoints_ne {n : Nat} (k : Nat) (hn : 3 ≤ n) (hk : k < n) :
    k ≠ (k + 1) % n := by
  have hm := mod_succ_eq k hk
  by_cases h : k + 1 = n
  · rw [if_pos h] at hm
    omega
  · rw [if_neg h] at hm
    omega

theorem mod_succ_lt {n : Nat} (k : Nat) (hk : k < n) : (k + 1) % n < n :=
  Nat.mod_lt _ (by omega)

theorem mkPorts_ne_empty {n : Nat} {x : String} (hx : x ∈ mkPorts n) : x ≠ "" := by
  unfold mkPorts at hx
  obtain ⟨i, _, rfl⟩ := List.mem_map.mp hx
  intro h
  have hd := congrArg String.data h
  rw [String.data_append,
    show ("port" : String).data = ['p', 'o', 'r', 't'] from rfl,
    show ("" : String).data = [] from rfl] at hd
  exact absurd hd (by simp)

theorem get_available_interface_spec {d : NetworkDevice} {x : String}
    (hnd : (d.interfaces.map Prod.fst).Nodup)
    (h : d.get_available_interface = some x) :
    alookup d.interfaces x = some none ∧ x ∈ d.interfaces.map Prod.fst := by
  unfold NetworkDevice.get_available_interface at h
  cases hf : d.interfaces.find? (fun p => p.2.isNone) with
  | none => rw [hf] at h; simp at h
  | some q =>
    rw [hf, Option.map_some'] at h
    have hkx : q.1 = x := Option.some.inj h
    have hq2b := @List.find?_some (String × Option Peer) (fun p => p.2.isNone) q d.interfaces hf
    have hq2 : q.2 = none := Option.isNone_iff_eq_none.mp hq2b
    have hqmem : q ∈ d.interfaces := List.mem_of_find?_eq_some hf
    obtain ⟨a, b⟩ := q
    have hkx' : a = x := hkx
    have hq2' : b = none := hq2
    subst hkx'
    subst hq2'
    exact ⟨alookup_of_mem_nodup hqmem hnd, List.mem_map.mpr ⟨(a, none), hqmem, rfl⟩⟩

theorem get_available_interface_none {d : NetworkDevice}
    (h : d.get_available_interface = none) : freeOf d = 0 := by
  unfold NetworkDevice.get_available_interface at h
  rw [Option.map_eq_none'] at h
  have hall := List.find?_eq_none.mp h
  unfold freeOf
  rw [List.length_eq_zero, List.filter_eq_nil_iff]
  intro q hq
  exact hall q hq

theorem get_available_of_free_pos {d : NetworkDevice} (h : 0 < freeOf d) :
    ∃ x, d.get_available_interface = some x := by
  cases hg : d.get_available_interface with
  | none =>
    rw [get_available_interface_none hg] at h
    omega
  | some x => exact ⟨x, rfl⟩

theorem mem_aset_elim {β : Type} {l : List (String × β)} {k : String} {v : β} :
    ∀ q ∈ aset l k v, q = (k, v) ∨ q ∈ l := by
  induction l with
  | nil =>
    intro q hq
    rw [show aset ([] : List (String × β)) k v = [(k, v)] from rfl] at hq
    rcases List.mem_singleton.mp hq with rfl
    exact Or.inl rfl
  | cons p rest ih =>
    obtain ⟨a, b⟩ := p
    intro q hq
    rw [aset_cons] at hq
    by_cases hp : a = k
    · rw [if_pos hp] at hq
      rcases List.mem_cons.mp hq with rfl | hmem
      · exact Or.inl rfl
      · exact Or.inr (List.mem_cons_of_mem _ hmem)
    · rw [if_neg hp] at hq
      rcases List.mem_cons.mp hq with rfl | hmem
      · exact Or.inr (List.mem_cons_self _ _)
      · rcases ih q hmem with h | h
        · exact Or.inl h
        · exact Or.inr (List.mem_cons_of_mem _ h)

theorem ringSwitchFold_stable (l : List Nat) :
    ∀ (s T : NetworkTopology), l.foldlM ringSwitchStep s = .ok T →
    ∀ x d, alookup s.devices x = some d → alookup T.devices x = some d := by
  induction l with
  | nil =>
    intro s T hok x d h
    simp only [List.foldlM_nil, pure, Except.pure] at hok
    cases hok
    exact h
  | cons i rest ih =>
    intro s T hok x d h
    rw [List.foldlM_cons] at hok
    obtain ⟨s1, hs1, hrest⟩ := exceptBind_ok hok
    obtain ⟨_, rfl⟩ := add_device_ok_elim hs1
    exact ih _ T hrest x d (alookup_append_left h)

theorem ringSwitchFold_present (l : List Nat) :
    ∀ (s T : NetworkTopology), l.foldlM ringSwitchStep s = .ok T →
    ∀ i ∈ l, alookup T.devices (swId (i + 1)) = some (ringSwitchDev i) := by
  induction l with
  | nil =>
    intro s T _ i hi
    simp at hi
  | cons j rest ih =>
    intro s T hok i hi
    rw [List.foldlM_cons] at hok
    obtain ⟨s1, hs1, hrest⟩ := exceptBind_ok hok
    obtain ⟨hfree, rfl⟩ := add_device_ok_elim hs1
    rcases List.mem_cons.mp hi with rfl | hmem
    · refine ringSwitchFold_stable rest _ T hrest _ _ ?_
      have hfree' : hasKey s.devices (swId (i + 1)) = false := by
        rw [← Switch_mk_device_id (swId (i + 1)) (some ("Switch " ++ natToStr (i + 1)))
          24 (.str "l2")]
        exact hfree
      show alookup (s.devices ++
        [((Switch.mk (swId (i + 1)) (some ("Switch " ++ natToStr (i + 1))) 24
            (.str "l2")).device_id,
          Switch.mk (swId (i + 1)) (some ("Switch " ++ natToStr (i + 1))) 24
            (.str "l2"))]) (swId (i + 1)) = some (ringSwitchDev i)
      rw [Switch_mk_device_id, alookup_append_right (hasKey_false_iff.mp hfree'),
        alookup_cons, if_pos rfl]
      rfl
    · exact ih _ T hrest i hmem

theorem ringHostAddFold_stable (macGen : String → String) (l : List Nat) :
    ∀ (s T : NetworkTopology), l.foldlM (ringHostAddStep macGen) s = .ok T →
    ∀ x d, alookup s.devices x = some d → alookup T.devices x = some d := by
  induction l with
  | nil =>
    intro s T hok x d h
    simp only [List.foldlM_nil, pure, Except.pure] at hok
    cases hok
    exact h
  | cons i rest ih =>
    intro s T hok x d h
    rw [List.foldlM_cons] at hok
    obtain ⟨s1, hs1, hrest⟩ := exceptBind_ok hok
    obtain ⟨_, rfl⟩ := add_device_ok_elim hs1
    exact ih _ T hrest x d (alookup_append_left h)

theorem connectEffect_devices (t : NetworkTopology) (d1 i1 d2 i2 : String) :
    (connectEffect t d1 i1 d2 i2).devices =
      amod (amod t.devices d1
          (fun dev => { dev with interfaces := aset dev.interfaces i1 (some (d2, i2)) }))
        d2 (fun dev => { dev with interfaces := aset dev.interfaces i2 (some (d1, i1)) }) :=
  rfl

theorem alookup_connectEffect_other (t : NetworkTopology) (d1 i1 d2 i2 : String)
    {x : String} (h1 : x ≠ d1) (h2 : x ≠ d2) :
    alookup (connectEffect t d1 i1 d2 i2).devices x = alookup t.devices x := by
  rw [connectEffect_devices, alookup_amod_ne _ _ h2, alookup_amod_ne _ _ h1]

theorem alookup_connectEffect_d2self (t : NetworkTopology) (d1 i1 i2 : String)
    {d2 : String} {dev2 : NetworkDevice} (hne : d2 ≠ d1)
    (hd2 : alookup t.devices d2 = some dev2) :
    alookup (connectEffect t d1 i1 d2 i2).devices d2 =
      some { dev2 with interfaces := aset dev2.interfaces i2 (some (d1, i1)) } := by
  rw [connectEffect_devices, alookup_amod_self, alookup_amod_ne _ _ hne, hd2]
  rfl

theorem alookup_connectEffect_d1self (t : NetworkTopology) (i1 d2 i2 : String)
    {d1 : String} {dev1 : NetworkDevice} (hne : d1 ≠ d2)
    (hd1 : alookup t.devices d1 = some dev1) :
    alookup (connectEffect t d1 i1 d2 i2).devices d1 =
      some { dev1 with interfaces := aset dev1.interfaces i1 (some (d2, i2)) } := by
  rw [connectEffect_devices, alookup_amod_ne _ _ hne, alookup_amod_self, hd1]
  rfl

theorem SwShape_hostconnect_step (n hps : Nat) {h : Nat} :
    ∀ (s : NetworkTopology) (i : Nat) (s' : NetworkTopology), i ∈ List.range h →
    (∀ j, j < n → SwShape s (swId (j + 1))) →
    ringHostConnectStep n hps s i = .ok s' →
    (∀ j, j < n → SwShape s' (swId (j + 1))) := by
  intro s i s' _ hP hstep
  unfold ringHostConnectStep at hstep
  dsimp only at hstep
  cases hga : getAvailOf s (hostId (i + 1)) with
  | none =>
    rw [hga] at hstep
    dsimp only at hstep
    cases hstep
    exact hP
  | some hi =>
    rw [hga] at hstep
    cases hgb : getAvailOf s (swId (min (i / hps) (n - 1) + 1)) with
    | none =>
      rw [hgb] at hstep
      dsimp only at hstep
      cases hstep
      exact hP
    | some si =>
      rw [hgb] at hstep
      dsimp only at hstep
      by_cases hemp : hi = "" ∨ si = ""
      · rw [if_pos hemp] at hstep
        cases hstep
        exact hP
      · rw [if_neg hemp] at hstep
        obtain ⟨dev1, dev2, hd1, hd2, hi1, hi2, rfl⟩ := connect_devices_ok_elim hstep
        intro j hj
        obtain ⟨dev, hdev, hty, hkeys, hpeers⟩ := hP j hj
        have hnh : swId (j + 1) ≠ hostId (i + 1) := swId_ne_hostId _ _
        by_cases hsw : swId (j + 1) = swId (min (i / hps) (n - 1) + 1)
        · have hdev2 : dev2 = dev := by
            rw [← hsw] at hd2
            rw [hdev] at hd2
            exact (Option.some.inj hd2).symm
          refine ⟨{ dev with interfaces := aset dev.interfaces si (some (hostId (i + 1), hi)) }, ?_, hty, ?_, ?_⟩
          · rw [hsw]
            have hlem := alookup_connectEffect_d2self s (hostId (i + 1)) hi si
              (swId_ne_hostId _ _) hd2
            rw [hdev2] at hlem
            exact hlem
          · show (aset dev.interfaces si (some (hostId (i + 1), hi))).map Prod.fst = mkPorts 24
            rw [map_fst_aset]
            · exact hkeys
            · rw [hdev2] at hi2
              rw [hasKey, hi2]
              rfl
          · intro q hq pe hpe
            rcases mem_aset_elim q hq with rfl | hmem
            · cases Option.some.inj hpe
              exact ⟨i, rfl⟩
            · exact hpeers q hmem pe hpe
        · refine ⟨dev, ?_, hty, hkeys, hpeers⟩
          rw [alookup_connectEffect_other s (hostId (i + 1)) hi
            (swId (min (i / hps) (n - 1) + 1)) si hnh hsw]
          exact hdev

theorem ringHostPhase_swshape (macGen : String → String) (n h : Nat)
    (t2 : NetworkTopology) (hok : ringHostPhase macGen n h = .ok t2) :
    ∀ j, j < n → SwShape t2 (swId (j + 1)) := by
  unfold ringHostPhase at hok
  obtain ⟨t1, hf1, hrest⟩ := exceptBind_ok hok
  obtain ⟨t2', hf2, hrest2⟩ := exceptBind_ok hrest
  have hshape1 : ∀ j, j < n → SwShape t1 (swId (j + 1)) := by
    intro j hj
    refine ⟨ringSwitchDev j,
      ringSwitchFold_present (List.range n) _ t1 hf1 j (List.mem_range.mpr hj),
      Switch_mk_device_type _ _ _ _, ?_, ?_⟩
    · show intfKeysOf (ringSwitchDev j) = mkPorts 24
      unfold intfKeysOf ringSwitchDev
      rw [Switch_mk_interfaces]
      rw [show (Prod.fst : String × Option Peer → String) = (fun p => p.1) from rfl]
      exact map_fst_mkpairs _
    · intro q hq pe hpe
      have hq' : q ∈ (mkPorts 24).map (fun s => (s, (none : Option Peer))) := by
        rw [← Switch_mk_interfaces (swId (j + 1))
          (some ("Switch " ++ natToStr (j + 1))) 24 (.str "l2")]
        exact hq
      obtain ⟨s0, _, rfl⟩ := List.mem_map.mp hq'
      simp at hpe
  have hshape2 : ∀ j, j < n → SwShape t2' (swId (j + 1)) := by
    intro j hj
    obtain ⟨dev, hdev, h1, h2, h3⟩ := hshape1 j hj
    exact ⟨dev, ringHostAddFold_stable macGen (List.range h) _ t2' hf2 _ _ hdev, h1, h2, h3⟩
  by_cases hz : n = 0
  · intro j hj
    omega
  · rw [if_neg hz] at hrest2
    exact foldlM_ok_ind (fun t => ∀ j, j < n → SwShape t (swId (j + 1)))
      (ringHostConnectStep n (max 1 (h / n))) (List.range h) _ t2 hshape2
      (fun s a s' ha hs hstep =>
        SwShape_hostconnect_step n (max 1 (h / n)) s a s' ha hs hstep) hrest2

theorem freeAt_eq {t : NetworkTopology} {id : String} {dev : NetworkDevice}
    (h : alookup t.devices id = some dev) : freeAt t id = freeOf dev := by
  unfold freeAt
  rw [h]

theorem switchPeerSlotsAt_eq {t : NetworkTopology} {id : String} {dev : NetworkDevice}
    (h : alookup t.devices id = some dev) :
    switchPeerSlotsAt t id =
      (dev.interfaces.filter (peerSwitchB (isSwitchIn t) id)).length := by
  unfold switchPeerSlotsAt
  rw [h]

theorem isSwitchIn_hostId_false {t : NetworkTopology} (hinv : HostPhaseInv t) (m : Nat) :
    isSwitchIn t (hostId (m + 1)) = false := by
  unfold isSwitchIn
  cases hk : alookup t.devices (hostId (m + 1)) with
  | none =>
    unfold typeOf
    rw [hk]
    rfl
  | some d =>
    have hkey : hasKey t.devices (hostId (m + 1)) = true := by
      unfold hasKey
      rw [hk]
      rfl
    rw [hinv.1 m hkey]
    decide

theorem RingState_init (n : Nat) (hn : 3 ≤ n) (t2 : NetworkTopology)
    (hshape : ∀ j, j < n → SwShape t2 (swId (j + 1)))
    (hinv : HostPhaseInv t2) : RingState n 0 t2 t2 := by
  refine ⟨fun x => rfl, ⟨[], by simp, rfl, by simp⟩, ?_⟩
  intro j hj
  obtain ⟨dev, hdev, hty, hkeys, hpeers⟩ := hshape j hj
  refine ⟨dev, hdev, hkeys, ?_, ?_⟩
  · rw [ringD_zero j (by omega) hj, List.length_eq_zero, List.filter_eq_nil_iff]
    intro q hq
    obtain ⟨k0, v0⟩ := q
    cases v0 with
    | none =>
      intro hco
      exact absurd hco (by simp [peerSwitchB])
    | some pe =>
      intro hco
      obtain ⟨m, hm⟩ := hpeers (k0, some pe) hq pe rfl
      unfold peerSwitchB at hco
      dsimp only at hco
      rw [hm, isSwitchIn_hostId_false hinv m] at hco
      simp at hco
  · rw [ringD_zero j (by omega) hj, Nat.sub_zero, freeAt_eq hdev]

theorem ringRingFold_exact {n : Nat} (hn : 3 ≤ n) (t2 : NetworkTopology)
    (hHost : ∀ c ∈ t2.connections, typeOf t2 c.1 = some "host")
    (hSw : ∀ j, j < n → isSwitchIn t2 (swId (j + 1)) = true)
    (hfree : ∀ j, j < n → 2 ≤ freeAt t2 (swId (j + 1))) :
    ∀ (m k : Nat), k + m = n → ∀ s, RingState n k t2 s →
    ∃ T, (List.range' k m).foldlM (ringRingStep n) s = .ok T ∧ RingState n n t2 T := by
  intro m
  induction m with
  | zero =>
    intro k hkm s hS
    refine ⟨s, by simp only [List.range', List.foldlM_nil]; rfl, ?_⟩
    exact (show k = n from by omega) ▸ hS
  | succ m ih =>
    intro k hkm s hS
    have hk : k < n := by omega
    obtain ⟨hty, ⟨recs, hconn, hlen, hrecs⟩, hswst⟩ := hS
    obtain ⟨devL, hdevL, hkeysL, hpeerL, hfreeL⟩ := hswst k hk
    obtain ⟨devR, hdevR, hkeysR, hpeerR, hfreeR⟩ := hswst ((k + 1) % n) (mod_succ_lt k hk)
    have hne : swId (k + 1) ≠ swId ((k + 1) % n + 1) := by
      intro he
      exact ring_endpoints_ne k hn hk (by have := swId_inj he; omega)
    have hndL : (devL.interfaces.map Prod.fst).Nodup := by
      rw [show devL.interfaces.map Prod.fst = intfKeysOf devL from rfl, hkeysL]
      exact mkPorts_nodup 24
    have hndR : (devR.interfaces.map Prod.fst).Nodup := by
      rw [show devR.interfaces.map Prod.fst = intfKeysOf devR from rfl, hkeysR]
      exact mkPorts_nodup 24
    have hfL : 0 < freeOf devL := by
      have h1 := hfree k hk
      have h2 := ringD_left_le_one k hn hk
      omega
    have hfR : 0 < freeOf devR := by
      have h1 := hfree ((k + 1) % n) (mod_succ_lt k hk)
      have h2 := ringD_right_le_one k hn hk
      omega
    obtain ⟨a, hga⟩ := get_available_of_free_pos hfL
    obtain ⟨b, hgb⟩ := get_available_of_free_pos hfR
    obtain ⟨haL, haMem⟩ := get_available_interface_spec hndL hga
    obtain ⟨hbL, hbMem⟩ := get_available_interface_spec hndR hgb
    have haNe : a ≠ "" := by
      rw [show devL.interfaces.map Prod.fst = intfKeysOf devL from rfl, hkeysL] at haMem
      exact mkPorts_ne_empty haMem
    have hbNe : b ≠ "" := by
      rw [show devR.interfaces.map Prod.fst = intfKeysOf devR from rfl, hkeysR] at hbMem
      exact mkPorts_ne_empty hbMem
    have hgaT : getAvailOf s (swId (k + 1)) = some a := by
      unfold getAvailOf
      rw [hdevL]
      exact hga
    have hgbT : getAvailOf s (swId ((k + 1) % n + 1)) = some b := by
      unfold getAvailOf
      rw [hdevR]
      exact hgb
    have hstep : ringRingStep n s k =
        .ok (connectEffect s (swId (k + 1)) a (swId ((k + 1) % n + 1)) b) := by
      unfold ringRingStep
      dsimp only
      rw [hgaT, hgbT]
      dsimp only
      rw [if_neg (not_or.mpr ⟨haNe, hbNe⟩)]
      exact connect_devices_ok_intro (swId (k + 1)) a (swId ((k + 1) % n + 1)) b
        hdevL hdevR haL hbL
    have hnotmem : (swId (k + 1), a, swId ((k + 1) % n + 1), b) ∉ s.connections := by
      rw [hconn]
      intro hmem
      rcases List.mem_append.mp hmem with hold | hnew
      · have hh : typeOf t2 (swId (k + 1)) = some "host" := hHost _ hold
        have hsw := hSw k hk
        unfold isSwitchIn at hsw
        rw [hh] at hsw
        exact absurd hsw (by decide)
      · obtain ⟨i, hik, h1, h2⟩ := hrecs _ hnew
        have h1' : swId (k + 1) = swId (i + 1) := h1
        have := swId_inj h1'
        omega
    have hPnewL : peerSwitchB (isSwitchIn t2) (swId (k + 1))
        (a, some (swId ((k + 1) % n + 1), b)) = true := by
      unfold peerSwitchB
      dsimp only
      rw [hSw ((k + 1) % n) (mod_succ_lt k hk),
        decide_eq_false (fun he => hne (Eq.symm he))]
      rfl
    have hPnewR : peerSwitchB (isSwitchIn t2) (swId ((k + 1) % n + 1))
        (b, some (swId (k + 1), a)) = true := by
      unfold peerSwitchB
      dsimp only
      rw [hSw k hk, decide_eq_false hne]
      rfl
    have hstepL : ringD n (k + 1) k = ringD n k k + 1 := by
      rw [ringD_step k k hn hk hk, if_pos (Or.inl rfl)]
    have hstepR : ringD n (k + 1) ((k + 1) % n) = ringD n k ((k + 1) % n) + 1 := by
      rw [ringD_step k ((k + 1) % n) hn hk (mod_succ_lt k hk), if_pos (Or.inr rfl)]
    have hS' : RingState n (k + 1) t2
        (connectEffect s (swId (k + 1)) a (swId ((k + 1) % n + 1)) b) := by
      refine ⟨?_, ?_, ?_⟩
      · intro x
        rw [typeOf_connectEffect]
        exact hty x
      · refine ⟨recs ++ [(swId (k + 1), a, swId ((k + 1) % n + 1), b)], ?_, ?_, ?_⟩
        · rw [connectEffect_connections, if_neg hnotmem, hconn, List.append_assoc]
        · rw [List.length_append, hlen, List.length_singleton]
        · intro c hc
          rcases List.mem_append.mp hc with hmem | hnew
          · obtain ⟨i, hik, h1, h2⟩ := hrecs c hmem
            exact ⟨i, by omega, h1, h2⟩
          · rcases List.mem_singleton.mp hnew with rfl
            exact ⟨k, by omega, rfl, rfl⟩
      · intro j hj
        by_cases hjL : j = k
        · subst hjL
          refine ⟨_, alookup_connectEffect_d1self s a (swId ((j + 1) % n + 1)) b hne hdevL,
            ?_, ?_, ?_⟩
          · show ((aset devL.interfaces a (some (swId ((j + 1) % n + 1), b))).map Prod.fst) =
              mkPorts 24
            rw [map_fst_aset devL.interfaces a (some (swId ((j + 1) % n + 1), b))
              (by unfold hasKey; rw [haL]; rfl)]
            exact hkeysL
          · have hcnt := length_filter_aset (peerSwitchB (isSwitchIn t2) (swId (j + 1)))
              devL.interfaces (some (swId ((j + 1) % n + 1), b))
              (alookup_eq_some_mem haL) hndL
            have hPold : peerSwitchB (isSwitchIn t2) (swId (j + 1)) (a, none) = false := rfl
            rw [hPold, hPnewL] at hcnt
            simp at hcnt
            show ((aset devL.interfaces a
              (some (swId ((j + 1) % n + 1), b))).filter
                (peerSwitchB (isSwitchIn t2) (swId (j + 1)))).length = ringD n (j + 1) j
            omega
          · have hcnt := length_filter_aset freeSlotB devL.interfaces
              (some (swId ((j + 1) % n + 1), b)) (alookup_eq_some_mem haL) hndL
            have hQold : freeSlotB (a, (none : Option Peer)) = true := rfl
            have hQnew : freeSlotB (a, some (swId ((j + 1) % n + 1), b)) = false := rfl
            rw [hQold, hQnew] at hcnt
            simp at hcnt
            show ((aset devL.interfaces a
              (some (swId ((j + 1) % n + 1), b))).filter freeSlotB).length =
              freeAt t2 (swId (j + 1)) - ringD n (j + 1) j
            have h1 := hfree j hk
            have hfo : freeOf devL = (List.filter freeSlotB devL.interfaces).length := rfl
            omega
        · by_cases hjR : j = (k + 1) % n
          · subst hjR
            refine ⟨_, alookup_connectEffect_d2self s (swId (k + 1)) a b
              (fun he => hne (Eq.symm he)) hdevR, ?_, ?_, ?_⟩
            · show ((aset devR.interfaces b (some (swId (k + 1), a))).map Prod.fst) =
                mkPorts 24
              rw [map_fst_aset devR.interfaces b (some (swId (k + 1), a))
                (by unfold hasKey; rw [hbL]; rfl)]
              exact hkeysR
            · have hcnt := length_filter_aset
                (peerSwitchB (isSwitchIn t2) (swId ((k + 1) % n + 1)))
                devR.interfaces (some (swId (k + 1), a)) (alookup_eq_some_mem hbL) hndR
              have hPold : peerSwitchB (isSwitchIn t2) (swId ((k + 1) % n + 1))
                  (b, none) = false := rfl
              rw [hPold, hPnewR] at hcnt
              simp at hcnt
              show ((aset devR.interfaces b (some (swId (k + 1), a))).filter
                (peerSwitchB (isSwitchIn t2) (swId ((k + 1) % n + 1)))).length =
                ringD n (k + 1) ((k + 1) % n)
              omega
            · have hcnt := length_filter_aset freeSlotB devR.interfaces
                (some (swId (k + 1), a)) (alookup_eq_some_mem hbL) hndR
              have hQold : freeSlotB (b, (none : Option Peer)) = true := rfl
              have hQnew : freeSlotB (b, some (swId (k + 1), a)) = false := rfl
              rw [hQold, hQnew] at hcnt
              simp at hcnt
              show ((aset devR.interfaces b (some (swId (k + 1), a))).filter
                freeSlotB).length =
                freeAt t2 (swId ((k + 1) % n + 1)) - ringD n (k + 1) ((k + 1) % n)
              have h1 := hfree ((k + 1) % n) (mod_succ_lt k hk)
              have hfo : freeOf devR = (List.filter freeSlotB devR.interfaces).length := rfl
              omega
          · obtain ⟨dev, hdevj, hkeysj, hpeerj, hfreej⟩ := hswst j hj
            have hstepD : ringD n (k + 1) j = ringD n k j := by
              rw [ringD_step k j hn hk hj, if_neg (not_or.mpr ⟨hjL, hjR⟩), Nat.add_zero]
            refine ⟨dev, ?_, hkeysj, ?_, ?_⟩
            · rw [alookup_connectEffect_other s (swId (k + 1)) a (swId ((k + 1) % n + 1)) b
                (fun he => hjL (by have := swId_inj he; omega))
                (fun he => hjR (by have := swId_inj he; omega))]
              exact hdevj
            · rw [hstepD]
              exact hpeerj
            · rw [hstepD]
              exact hfreej
    obtain ⟨T, hfoldT, hST⟩ := ih (k + 1) (by omega) _ hS'
    refine ⟨T, ?_, hST⟩
    rw [show List.range' k (m + 1) = k :: List.range' (k + 1) m from rfl,
      List.foldlM_cons, exceptBind_of_ok hstep, hfoldT]

/-- C6 (amended): for `numSwitches = n ≥ 3`, whenever the host-attachment
phase succeeds and leaves every ring switch with at least two free ports,
the generator succeeds, produces exactly `n` switch-to-switch connection
records, and every switch ends with exactly 2 interface slots whose peer
is another switch.  (As claimed — for every `numHosts` — the statement is
false: hosts can exhaust a switch's 24 ports, and the ring loop then
silently skips iterations; see the counterexample.) -/
theorem C6_ring_exact (macGen : String → String) (n h : Nat) (hn : 3 ≤ n)
    (t2 : NetworkTopology) (hphase : ringHostPhase macGen n h = .ok t2)
    (hfree : ∀ j, j < n → 2 ≤ freeAt t2 (swId (j + 1))) :
    ∃ t3, create_ring_network macGen n h = .ok t3 ∧ ssCount t3 = n ∧
      ∀ j, j < n → switchPeerSlotsAt t3 (swId (j + 1)) = 2 := by
  have hinv := ringHostPhase_inv macGen n h t2 hphase
  have hshape := ringHostPhase_swshape macGen n h t2 hphase
  have hSw : ∀ j, j < n → isSwitchIn t2 (swId (j + 1)) = true := by
    intro j hj
    obtain ⟨dev, hdev, hty, _, _⟩ := hshape j hj
    unfold isSwitchIn typeOf
    rw [hdev, Option.map_some', hty]
    decide
  obtain ⟨T, hfold, hTS⟩ := ringRingFold_exact hn t2 hinv.2 hSw hfree n 0 (by omega) t2
    (RingState_init n hn t2 hshape hinv)
  obtain ⟨htyT, ⟨recs, hconn, hlen, hrecs⟩, hswT⟩ := hTS
  refine ⟨T, ?_, ?_, ?_⟩
  · show (ringHostPhase macGen n h >>= fun t =>
      (List.range n).foldlM (ringRingStep n) t) = .ok T
    rw [exceptBind_of_ok hphase, List.range_eq_range']
    exact hfold
  · unfold ssCount
    rw [hconn, List.filter_append]
    have hold : t2.connections.filter (ssRecordB T) = [] := by
      rw [List.filter_eq_nil_iff]
      intro c hc hco
      unfold ssRecordB at hco
      rw [Bool.and_eq_true] at hco
      have h1 := hco.1
      unfold isSwitchIn at h1
      rw [htyT c.1, hinv.2 c hc] at h1
      exact absurd h1 (by decide)
    have hall : recs.filter (ssRecordB T) = recs := by
      rw [List.filter_eq_self]
      intro c hc
      obtain ⟨i, hik, h1, h2⟩ := hrecs c hc
      unfold ssRecordB
      rw [Bool.and_eq_true]
      constructor
      · unfold isSwitchIn
        rw [h1, htyT]
        exact hSw i hik
      · unfold isSwitchIn
        rw [h2, htyT]
        exact hSw ((i + 1) % n) (mod_succ_lt i hik)
    rw [hold, hall, List.nil_append]
    exact hlen
  · intro j hj
    obtain ⟨dev, hdev, hkeys, hcount, _⟩ := hswT j hj
    rw [switchPeerSlotsAt_eq hdev]
    have hcongr : dev.interfaces.filter (peerSwitchB (isSwitchIn T) (swId (j + 1))) =
        dev.interfaces.filter (peerSwitchB (isSwitchIn t2) (swId (j + 1))) := by
      apply List.filter_congr
      intro q hq
      obtain ⟨k0, v0⟩ := q
      cases v0 with
      | none => rfl
      | some pe =>
        unfold peerSwitchB
        dsimp only
        have hiso : isSwitchIn T pe.1 = isSwitchIn t2 pe.1 := by
          unfold isSwitchIn
          rw [htyT]
        rw [hiso]
    rw [hcongr, hcount, ringD_final j hn hj]

theorem C6_ring_exact_witness :
    (3 : Nat) ≤ 3 ∧
    ringHostPhase (fun _ => "") 3 1 = .ok (ringT2 (fun _ => "") 3 1) ∧
    (∀ j, j < 3 → 2 ≤ freeAt (ringT2 (fun _ => "") 3 1) (swId (j + 1))) ∧
    ∃ t3, create_ring_network (fun _ => "") 3 1 = .ok t3 ∧ ssCount t3 = 3 ∧
      ∀ j, j < 3 → switchPeerSlotsAt t3 (swId (j + 1)) = 2 :=
  ⟨by omega, by decide, by decide,
    C6_ring_exact (fun _ => "") 3 1 (by omega) (ringT2 (fun _ => "") 3 1)
      (by decide) (by decide)⟩

set_option maxRecDepth 10000 in
set_option maxHeartbeats 4000000 in
/-- C6 counterexample to the claim as stated ("for every numSwitches ≥ 3
and every numHosts"): at `numSwitches = 3`, `numHosts = 65` the third
switch receives 23 hosts and its last free port goes to the first ring
edge, so the remaining two ring iterations find no available interface on
it and are silently skipped — the run succeeds with 2 switch-to-switch
records, not 3. -/
theorem C6_counterexample :
    create_ring_network (fun _ => "") 3 65 = .ok (ringT3 (fun _ => "") 3 65) ∧
    ssCount (ringT3 (fun _ => "") 3 65) = 2 := by
  constructor
  · decide
  · decide
